import Mathlib

/-!
Shallow embedding of the `tokml` GeoJSON-to-KML converter
(`src/lib/index.ts`) and verification of its specification claims.

Strings are modelled as Lean `String` (sequences of characters), JavaScript
finite numbers as explicit fractions (`JNum`), property maps as association
lists in insertion order, and code paths that would throw a `TypeError`
return `none`.
-/

set_option maxRecDepth 4000

/-- A JavaScript finite number, modelled as the fraction `num / den`.
All construction sites in this development use a positive denominator. -/
structure JNum where
  num : Int
  den : Nat
deriving DecidableEq

/-- Fuel-based `Nat.gcd` (kernel-reducible); correct whenever `fuel ≥ a`. -/
def natGcdF : Nat → Nat → Nat → Nat
  | 0, _, b => b
  | _ + 1, 0, b => b
  | fuel + 1, a + 1, b => natGcdF fuel (b % (a + 1)) (a + 1)

/-- Multiplicity of `p` in `n`, fuel-based (correct for `fuel ≥ n`, `p ≥ 2`, `n ≥ 1`). -/
def countFactorF : Nat → Nat → Nat → Nat
  | 0, _, _ => 0
  | fuel + 1, p, n => if n % p = 0 && n / p != 0 then countFactorF fuel p (n / p) + 1 else 0

/-- Decimal digits of a natural number. -/
def natDecChars (n : Nat) : List Char := Nat.toDigits 10 n

/-- Models JavaScript number-to-string. Finite decimal fractions (every
numeric value reachable in this development) are rendered exactly as
JavaScript renders them (`0.5`, `2`, `-1.25`, ...); a non-decimal fraction
falls back to an explicit fraction rendering, which no claim exercises. -/
def jnumToString (q : JNum) : String :=
  let sign := if q.num < 0 then "-" else ""
  let n0 := q.num.natAbs
  let g := natGcdF (n0 + 1) n0 q.den
  let n := n0 / g
  let d := q.den / g
  if d = 1 then sign ++ String.mk (natDecChars n)
  else
    let a := countFactorF d 2 d
    let b := countFactorF d 5 d
    if d = 2 ^ a * 5 ^ b then
      let k := max a b
      let m := n * 10 ^ k / d
      let ds := natDecChars m
      if ds.length ≤ k then
        sign ++ "0." ++ String.mk (List.replicate (k - ds.length) '0' ++ ds)
      else
        sign ++ String.mk (ds.take (ds.length - k)) ++ "." ++ String.mk (ds.drop (ds.length - k))
    else sign ++ String.mk (natDecChars n) ++ "/" ++ String.mk (natDecChars d)

/-- A GeoJSON property value: a JavaScript scalar (string, number, boolean or null). -/
inductive PValue where
  | vStr (s : String)
  | vNum (q : JNum)
  | vBool (b : Bool)
  | vNull
deriving DecidableEq

/-- JavaScript truthiness of a property value. -/
def truthyV : PValue → Bool
  | .vStr s => s != ""
  | .vNum q => q.num != 0
  | .vBool b => b
  | .vNull => false

/-- JavaScript truthiness of a possibly-absent value (`undefined` is falsy). -/
def truthy : Option PValue → Bool
  | none => false
  | some v => truthyV v

/-- JavaScript string coercion of a scalar value. -/
def jsToString : PValue → String
  | .vStr s => s
  | .vNum q => jnumToString q
  | .vBool true => "true"
  | .vBool false => "false"
  | .vNull => "null"

/-- A feature's property map: key/value pairs in object insertion order. -/
def Properties := List (String × PValue)

instance : DecidableEq Properties := by unfold Properties; infer_instance

/-- Property access `props[k]` (`none` models `undefined`). -/
def lookupP (p : Properties) (k : String) : Option PValue :=
  List.lookup k p

/-- The effect of `delete props[k]` on the property map's contents. -/
def removeKey (k : String) (p : Properties) : Properties :=
  List.filter (fun kv => kv.1 != k) p

-- ## Text/XML encoder (src/lib/index.ts lines 403-415)

/-- Replacement for one character under the `escapeMap` of `encode`. -/
def escChar (c : Char) : String :=
  if c = '>' then "&gt;"
  else if c = '<' then "&lt;"
  else if c = '\'' then "&apos;"
  else if c = '"' then "&quot;"
  else if c = '&' then "&amp;"
  else String.mk [c]

/-- Global single-character-class regex replace, as performed by
`String.prototype.replace(/([&"<>'])/g, ...)`: each character of the input
is emitted once, replaced by its entity when it matches the class. -/
def escapeList : List Char → String
  | [] => ""
  | c :: cs => escChar c ++ escapeList cs

/-- Escape the five XML-special characters of a string (`encode` body). -/
def escapeString (s : String) : String := escapeList s.data

/-- `encode(value)`: `null`/`undefined` map to the empty string, any other
scalar is stringified and escaped. -/
def encode : Option PValue → String
  | none => ""
  | some .vNull => ""
  | some v => escapeString (jsToString v)

/-- Join a list of strings with a separator (`Array.prototype.join`). -/
def joinSep (sep : String) : List String → String
  | [] => ""
  | [x] => x
  | x :: y :: xs => x ++ sep ++ joinSep sep (y :: xs)

/-- Concatenation of a list of strings (`join('')`). -/
def strJoin : List String → String
  | [] => ""
  | s :: ss => s ++ strJoin ss

/-- One `key="escaped-value"` attribute rendering. -/
def attrPair (kv : String × PValue) : String :=
  kv.1 ++ "=\"" ++ encode (some kv.2) ++ "\""

/-- `attr(attributes)`: leading space plus space-joined `key="value"` pairs,
empty for an empty map. -/
def attrString (attributes : List (String × PValue)) : String :=
  if attributes.isEmpty then "" else " " ++ joinSep " " (attributes.map attrPair)

/-- `tag(el, attributes, contents)`: one XML element with raw contents. -/
def tagA (el : String) (attributes : List (String × PValue)) (contents : String) : String :=
  "<" ++ el ++ attrString attributes ++ ">" ++ contents ++ "</" ++ el ++ ">"

/-- `tag(el, contents)`: element without attributes. -/
def tag (el : String) (contents : String) : String := tagA el [] contents

-- ## Geometry (src/lib/index.ts lines 203-245)

/-- A GeoJSON geometry object. `none` coordinates/geometries model an absent
field; `unrecognized` models an object whose `type` is none of the seven
recognized kinds, carrying whether a `coordinates` field is present. -/
inductive Geometry where
  | point (coordinates : Option (List JNum))
  | lineString (coordinates : Option (List (List JNum)))
  | polygon (coordinates : Option (List (List (List JNum))))
  | multiPoint (coordinates : Option (List (List JNum)))
  | multiPolygon (coordinates : Option (List (List (List (List JNum)))))
  | multiLineString (coordinates : Option (List (List (List JNum))))
  | geometryCollection (geometries : Option (List Geometry))
  | unrecognized (typeName : String) (hasCoordinates : Bool)

/-- The geometry's `type` discriminator string. -/
def geomTypeName : Geometry → String
  | .point _ => "Point"
  | .lineString _ => "LineString"
  | .polygon _ => "Polygon"
  | .multiPoint _ => "MultiPoint"
  | .multiPolygon _ => "MultiPolygon"
  | .multiLineString _ => "MultiLineString"
  | .geometryCollection _ => "GeometryCollection"
  | .unrecognized t _ => t

mutual

/-- `validators.isValid`: type is truthy and, for a collection, the members
are present and recursively valid; otherwise a `coordinates` field is present
(an empty array is truthy in JavaScript). -/
def geomIsValid : Geometry → Bool
  | .point c => c.isSome
  | .lineString c => c.isSome
  | .polygon c => c.isSome
  | .multiPoint c => c.isSome
  | .multiPolygon c => c.isSome
  | .multiLineString c => c.isSome
  | .geometryCollection none => false
  | .geometryCollection (some gs) => geomListValid gs
  | .unrecognized t c => (t != "") && c

/-- `Array.prototype.every(validators.isValid)` over collection members. -/
def geomListValid : List Geometry → Bool
  | [] => true
  | g :: gs => geomIsValid g && geomListValid gs

end

/-- `validators.isPoint`. -/
def isPointKind : Geometry → Bool
  | .point _ => true
  | .multiPoint _ => true
  | _ => false

/-- `validators.isPolygon`. -/
def isPolygonKind : Geometry → Bool
  | .polygon _ => true
  | .multiPolygon _ => true
  | _ => false

/-- `validators.isLine`. -/
def isLineKind : Geometry → Bool
  | .lineString _ => true
  | .multiLineString _ => true
  | _ => false

/-- `coordinates.join(',')` for one position. -/
def joinNums (cds : List JNum) : String :=
  joinSep "," (cds.map jnumToString)

/-- `linearRing`: positions comma-joined internally, space-joined overall. -/
def linearRing (cds : List (List JNum)) : String :=
  joinSep " " (cds.map joinNums)

/-- `geometry.Point` converter body. -/
def pointMarkup (cds : List JNum) : String :=
  tag "Point" (tag "coordinates" (joinNums cds))

/-- `geometry.LineString` converter body. -/
def lineStringMarkup (cds : List (List JNum)) : String :=
  tag "LineString" (tag "coordinates" (linearRing cds))

/-- `geometry.Polygon` converter body: first ring outer, rest inner; an empty
ring sequence yields the empty string. -/
def polygonMarkup : List (List (List JNum)) → String
  | [] => ""
  | outer :: inner =>
    tag "Polygon"
      (tag "outerBoundaryIs" (tag "LinearRing" (tag "coordinates" (linearRing outer))) ++
        strJoin (inner.map (fun i => tag "innerBoundaryIs" (tag "LinearRing" (tag "coordinates" (linearRing i))))))

mutual

/-- `anyGeometry`: dispatch over the seven recognized kinds, the empty string
for an unrecognized kind. `none` models the `TypeError` thrown when a
recognized non-collection kind has no `coordinates` field (or a collection
has no `geometries` field); `feature` only calls this after `isValid`. -/
def anyGeometry : Geometry → Option String
  | .point none => none
  | .point (some cds) => some (pointMarkup cds)
  | .lineString none => none
  | .lineString (some cds) => some (lineStringMarkup cds)
  | .polygon none => none
  | .polygon (some rings) => some (polygonMarkup rings)
  | .multiPoint none => none
  | .multiPoint (some []) => some ""
  | .multiPoint (some cds) => some (tag "MultiGeometry" (strJoin (cds.map pointMarkup)))
  | .multiPolygon none => none
  | .multiPolygon (some []) => some ""
  | .multiPolygon (some polys) => some (tag "MultiGeometry" (strJoin (polys.map polygonMarkup)))
  | .multiLineString none => none
  | .multiLineString (some []) => some ""
  | .multiLineString (some lines) => some (tag "MultiGeometry" (strJoin (lines.map lineStringMarkup)))
  | .geometryCollection none => none
  | .geometryCollection (some gs) => (anyGeometryList gs).map (fun ss => tag "MultiGeometry" (strJoin ss))
  | .unrecognized _ _ => some ""

/-- `geometries.map(anyGeometry)` over collection members. -/
def anyGeometryList : List Geometry → Option (List String)
  | [] => some []
  | g :: gs =>
    match anyGeometry g, anyGeometryList gs with
    | some s, some ss => some (s :: ss)
    | _, _ => none

end

-- ## Color codec (src/lib/index.ts lines 343-373)

/-- ASCII hexadecimal digit (`0-9`, `a-f`, `A-F`). -/
def isHexDigitChar (c : Char) : Bool :=
  (48 ≤ c.toNat && c.toNat ≤ 57) || (97 ≤ c.toNat && c.toNat ≤ 102) ||
    (65 ≤ c.toNat && c.toNat ≤ 70)

/-- JavaScript `StrWhiteSpaceChar` (whitespace and line terminators trimmed
by string-to-number coercion). -/
def isJsWhitespace (c : Char) : Bool :=
  c.toNat = 9 || c.toNat = 10 || c.toNat = 11 || c.toNat = 12 || c.toNat = 13 ||
    c.toNat = 32 || c.toNat = 160 || c.toNat = 0x1680 ||
    (0x2000 ≤ c.toNat && c.toNat ≤ 0x200A) || c.toNat = 0x2028 || c.toNat = 0x2029 ||
    c.toNat = 0x202F || c.toNat = 0x205F || c.toNat = 0x3000 || c.toNat = 0xFEFF

/-- Remove trailing JavaScript whitespace. -/
def trimRightWs (l : List Char) : List Char :=
  (l.reverse.dropWhile isJsWhitespace).reverse

/-- `Number.isNaN(Number('0x' + s))`: string-to-number coercion trims
whitespace at both ends of the whole string (so only trailing whitespace of
`s` is trimmed, the leading `0x` being fixed), then requires at least one
hexadecimal digit and nothing else. -/
def jsHexNaN (s : String) : Bool :=
  let t := trimRightWs s.data
  t.isEmpty || t.any (fun c => !isHexDigitChar c)

/-- Remove the first occurrence of character `c` from a character list. -/
def removeFirstChar (c : Char) : List Char → List Char
  | [] => []
  | x :: xs => if x = c then xs else x :: removeFirstChar c xs

/-- `s.replace(c, '')` for a single-character pattern: removes the first
occurrence of `c` anywhere in `s`. -/
def jsReplaceOne (s : String) (c : Char) : String :=
  String.mk (removeFirstChar c s.data)

/-- `s.toLowerCase()` (ASCII case mapping suffices here). -/
def lowerString (s : String) : String :=
  String.mk (s.data.map Char.toLower)

/-- `n.toString(16)` for a natural `n` (lowercase hex digits). -/
def natToHexChars (n : Nat) : List Char := Nat.toDigits 16 n

/-- `s.slice(-2)`: the last two characters. -/
def jsSliceLast2 (s : String) : String :=
  String.mk (s.data.drop (s.data.length - 2))

/-- `Math.floor(opacity * 255)` of the fraction, as a natural number (the
call site guarantees `0 ≤ opacity ≤ 1`). -/
def jnumFloorMul255 (q : JNum) : Nat :=
  (Int.fdiv (q.num * 255) (q.den : Int)).toNat

/-- The alpha channel in `hexToKmlColor`: a number with value in `[0, 1]`
yields `('0' + floor(o*255).toString(16)).slice(-2)`, anything else `'ff'`. -/
def alphaStr : Option PValue → String
  | some (.vNum q) =>
    if 0 ≤ q.num ∧ q.num ≤ (q.den : Int) then
      jsSliceLast2 ("0" ++ String.mk (natToHexChars (jnumFloorMul255 q)))
    else "ff"
  | _ => "ff"

/-- The tail of `hexToKmlColor` after the channel strings are extracted:
three NaN checks in order, then `o + b + g + r`. -/
def hexBuild (r g b : String) (opacity : Option PValue) : String :=
  if jsHexNaN r then ""
  else if jsHexNaN g then ""
  else if jsHexNaN b then ""
  else alphaStr opacity ++ b ++ g ++ r

/-- The character list `hexToKmlColor` works on: input with its first `#`
removed, lowercased. -/
def kmlHexInput (s0 : String) : List Char :=
  (lowerString (jsReplaceOne s0 '#')).data

/-- `hexToKmlColor(hexColor, opacity)`: non-strings yield the empty string;
length-3 inputs double each character, length-6 inputs pair characters;
any other length yields the empty string. -/
def hexToKmlColor (hexColor opacity : Option PValue) : String :=
  match hexColor with
  | some (.vStr s0) =>
    if (kmlHexInput s0).length = 3 then
      match kmlHexInput s0 with
      | [c1, c2, c3] =>
        hexBuild (String.mk [c1, c1]) (String.mk [c2, c2]) (String.mk [c3, c3]) opacity
      | _ => ""
    else if (kmlHexInput s0).length = 6 then
      match kmlHexInput s0 with
      | [c1, c2, c3, c4, c5, c6] =>
        hexBuild (String.mk [c1, c2]) (String.mk [c3, c4]) (String.mk [c5, c6]) opacity
      | _ => ""
    else ""
  | _ => ""

-- ## Marker style (src/lib/index.ts lines 264-291)

/-- `hasMarkerStyle`: some marker key present and truthy. -/
def hasMarkerStyle (p : Properties) : Bool :=
  truthy (lookupP p "marker-size") || truthy (lookupP p "marker-symbol") ||
    truthy (lookupP p "marker-color")

/-- `removeMarkerStyles` applied to a copy: the four marker keys deleted. -/
def removeMarkerStyles (p : Properties) : Properties :=
  removeKey "marker-size" (removeKey "marker-color" (removeKey "marker-symbol" (removeKey "marker-shape" p)))

/-- `s.charAt(0)` as a string. -/
def jsCharAt0 (s : String) : String :=
  match s.data with
  | [] => ""
  | c :: _ => String.mk [c]

/-- `iconUrl`: marker tile URL from size/symbol/color with defaults. `none`
models the `TypeError` thrown when a truthy `marker-size` or `marker-color`
is not a string (`charAt`/`replace` on a non-string). -/
def iconUrlOpt (p : Properties) : Option String := do
  let size ← match lookupP p "marker-size" with
    | some v =>
      if truthyV v then
        match v with
        | .vStr s => some s
        | _ => none
      else some "medium"
    | none => some "medium"
  let symbol := match lookupP p "marker-symbol" with
    | some v => if truthyV v then "-" ++ jsToString v else ""
    | none => ""
  let color ← match lookupP p "marker-color" with
    | some v =>
      if truthyV v then
        match v with
        | .vStr s => some (String.mk (removeFirstChar '#' s.data))
        | _ => none
      else some "7e7e7e"
    | none => some "7e7e7e"
  some ("https://api.tiles.mapbox.com/v3/marker/" ++ "pin-" ++ jsCharAt0 size ++ symbol ++
    "+" ++ color ++ ".png")

/-- `iconSize`: fixed-center hotSpot element. -/
def iconSize (_p : Properties) : String :=
  tagA "hotSpot"
    [("xunits", .vStr "fraction"), ("yunits", .vStr "fraction"),
     ("x", .vNum ⟨1, 2⟩), ("y", .vNum ⟨1, 2⟩)] ""

/-- `markerStyle`: the `<Style>` element for the marker path. -/
def markerStyleOpt (p : Properties) (styleHash : String) : Option String :=
  (iconUrlOpt p).map (fun url =>
    tagA "Style" [("id", .vStr styleHash)]
      (tag "IconStyle" (tag "Icon" (tag "href" url)) ++ iconSize p))

-- ## Polygon and line style (src/lib/index.ts lines 295-322)

/-- `hasPolygonAndLineStyle`: some stroke/fill key present and truthy. -/
def hasPolygonAndLineStyle (p : Properties) : Bool :=
  truthy (lookupP p "stroke") || truthy (lookupP p "stroke-opacity") ||
    truthy (lookupP p "stroke-width") || truthy (lookupP p "fill") ||
    truthy (lookupP p "fill-opacity")

/-- `removePolygonAndLineStyles` applied to a copy: the five keys deleted. -/
def removePolygonAndLineStyles (p : Properties) : Properties :=
  removeKey "fill-opacity" (removeKey "fill" (removeKey "stroke-opacity" (removeKey "stroke-width" (removeKey "stroke" p))))

/-- JavaScript `||` on strings: the left side unless it is empty (falsy). -/
def jsOrDefault (s d : String) : String :=
  if s = "" then d else s

/-- The `<width>` contents: `2` when `stroke-width` is `null`/absent,
otherwise the value stringified. -/
def widthContents (p : Properties) : String :=
  match lookupP p "stroke-width" with
  | none => "2"
  | some .vNull => "2"
  | some v => jsToString v

/-- `polygonAndLineStyle`: LineStyle always, PolyStyle only when `fill` or
`fill-opacity` is present and truthy. -/
def polygonAndLineStyle (p : Properties) (styleHash : String) : String :=
  tagA "Style" [("id", .vStr styleHash)]
    (tag "LineStyle"
      (tag "color" (jsOrDefault (hexToKmlColor (lookupP p "stroke") (lookupP p "stroke-opacity")) "ff555555") ++
        tag "width" (widthContents p)) ++
      (if truthy (lookupP p "fill") || truthy (lookupP p "fill-opacity") then
        tag "PolyStyle"
          (tag "color" (jsOrDefault (hexToKmlColor (lookupP p "fill") (lookupP p "fill-opacity")) "88555555"))
      else ""))

-- ## Style hash (src/lib/index.ts lines 326-341)

/-- One `hash += tag + value` segment for keys concatenated directly
(`marker-symbol`, `marker-size`): skipped when falsy. -/
def hashSegPlain (pre : String) : Option PValue → String
  | none => ""
  | some v => if truthyV v then pre ++ jsToString v else ""

/-- One segment for color keys (`marker-color`, `stroke`, `fill`), which call
`.replace('#','')`; a truthy non-string would throw (`none`). -/
def hashSegColor (pre : String) : Option PValue → Option String
  | none => some ""
  | some v =>
    if truthyV v then
      match v with
      | .vStr s => some (pre ++ String.mk (removeFirstChar '#' s.data))
      | _ => none
    else some ""

/-- One segment for numeric-ish keys (`stroke-width`, `stroke-opacity`,
`fill-opacity`), which call `.toString().replace('.','')`. -/
def hashSegDecimal (pre : String) : Option PValue → String
  | none => ""
  | some v => if truthyV v then pre ++ String.mk (removeFirstChar '.' (jsToString v).data) else ""

/-- `hashStyle`: concatenation of the eight conditional segments, in source
order; `none` models the `TypeError` on a truthy non-string color value. -/
def hashStyleOpt (p : Properties) : Option String := do
  let mcSeg ← hashSegColor "mc" (lookupP p "marker-color")
  let strokeSeg ← hashSegColor "s" (lookupP p "stroke")
  let fillSeg ← hashSegColor "f" (lookupP p "fill")
  some (hashSegPlain "ms" (lookupP p "marker-symbol") ++ mcSeg ++
    hashSegPlain "ms" (lookupP p "marker-size") ++ strokeSeg ++
    hashSegDecimal "sw" (lookupP p "stroke-width") ++
    hashSegDecimal "mo" (lookupP p "stroke-opacity") ++
    fillSeg ++ hashSegDecimal "fo" (lookupP p "fill-opacity"))

-- ## Options (src/lib/index.ts lines 18-78 and 90-99)

/-- The caller's options object; `none` models a key absent from it. The
defaults merge at the top of `tokml` is rendered by the resolved accessors
below. -/
structure Options where
  documentName : Option String := none
  documentDescription : Option String := none
  name : Option String := none
  description : Option String := none
  timestamp : Option String := none
  simplestyle : Option Bool := none

/-- Resolved `options.name` (default `'name'`). -/
def rName (o : Options) : String := o.name.getD "name"

/-- Resolved `options.description` (default `'description'`). -/
def rDescription (o : Options) : String := o.description.getD "description"

/-- Resolved `options.timestamp` (default `'timestamp'`). -/
def rTimestamp (o : Options) : String := o.timestamp.getD "timestamp"

/-- Resolved `options.simplestyle` (default `false`). -/
def rSimplestyle (o : Options) : Bool := o.simplestyle.getD false

/-- `documentName(options)`: a `<name>` element with the raw (unescaped)
option string, or empty when unset. -/
def documentNameStr (o : Options) : String :=
  match o.documentName with
  | some n => tag "name" n
  | none => ""

/-- `documentDescription(options)`: likewise for `<description>`. -/
def documentDescriptionStr (o : Options) : String :=
  match o.documentDescription with
  | some d => tag "description" d
  | none => ""

/-- `name(properties, options)`: escaped `<name>` from the configured
property key when the key is configured and the value truthy. -/
def nameTag (p : Properties) (o : Options) : String :=
  if rName o = "" then ""
  else if truthy (lookupP p (rName o)) then tag "name" (encode (lookupP p (rName o)))
  else ""

/-- `description(properties, options)`. -/
def descriptionTag (p : Properties) (o : Options) : String :=
  if rDescription o = "" then ""
  else if truthy (lookupP p (rDescription o)) then
    tag "description" (encode (lookupP p (rDescription o)))
  else ""

/-- `timestamp(properties, options)`: `<TimeStamp><when>...</when></TimeStamp>`. -/
def timestampTag (p : Properties) (o : Options) : String :=
  if rTimestamp o = "" then ""
  else if truthy (lookupP p (rTimestamp o)) then
    tag "TimeStamp" (tag "when" (encode (lookupP p (rTimestamp o))))
  else ""

/-- One `<Data name="..."><value>...</value></Data>` entry. -/
def dataTag (n : String) (v : PValue) : String :=
  tagA "Data" [("name", .vStr n)] (tag "value" (encode (some v)))

/-- `extendedData(properties)`: every remaining property, in key order. -/
def extendedData (p : Properties) : String :=
  tag "ExtendedData" (strJoin (p.map (fun kv => dataTag kv.1 kv.2)))

-- ## Feature assembler (src/lib/index.ts lines 111-158)

/-- A GeoJSON feature: optional id, optional geometry object, optional
(possibly null) properties object. -/
structure Feature where
  id : Option PValue := none
  geometry : Option Geometry := none
  properties : Option Properties := none

/-- The Placemark attribute map: `id` only when the feature's id is truthy. -/
def idAttrs : Option PValue → List (String × PValue)
  | some v => if truthyV v then [("id", .vStr (jsToString v))] else []
  | none => []

/-- The Placemark contents, in source order: name, description, ExtendedData,
TimeStamp, geometry markup, style reference. -/
def placemarkBody (props2 : Properties) (o : Options) (geometryString styleReference : String) : String :=
  nameTag props2 o ++ descriptionTag props2 o ++ extendedData props2 ++
    timestampTag props2 o ++ geometryString ++ styleReference

/-- The simplestyle block of `feature` (lines 118-140): computes hash,
dispatches on path, deduplicates against the registry, and replaces the
properties used afterwards by a filtered copy. Returns (styleDefinition,
styleReference, properties, registry). -/
def styleStep (o : Options) (g : Geometry) (props : Properties) (hashes : List String) :
    Option (String × String × Properties × List String) :=
  if rSimplestyle o = false then some ("", "", props, hashes)
  else
    match hashStyleOpt props with
    | none => none
    | some styleHash =>
      if styleHash = "" then some ("", "", props, hashes)
      else if isPointKind g && hasMarkerStyle props then
        if hashes.contains styleHash then
          some ("", tag "styleUrl" ("#" ++ styleHash), removeMarkerStyles props, hashes)
        else
          match markerStyleOpt props styleHash with
          | none => none
          | some styleDefinition =>
            some (styleDefinition, tag "styleUrl" ("#" ++ styleHash),
              removeMarkerStyles props, hashes ++ [styleHash])
      else if (isPolygonKind g || isLineKind g) && hasPolygonAndLineStyle props then
        if hashes.contains styleHash then
          some ("", tag "styleUrl" ("#" ++ styleHash), removePolygonAndLineStyles props, hashes)
        else
          some (polygonAndLineStyle props styleHash, tag "styleUrl" ("#" ++ styleHash),
            removePolygonAndLineStyles props, hashes ++ [styleHash])
      else some ("", "", props, hashes)

/-- `feature(options, styleHashesArray)(f)`: empty output when properties
are absent or the geometry invalid or its markup empty; otherwise an optional
style definition followed by one Placemark. The registry is threaded
explicitly (second component). -/
def featureRun (o : Options) (hashes : List String) (f : Feature) :
    Option (String × List String) :=
  match f.properties with
  | none => some ("", hashes)
  | some props =>
    match f.geometry with
    | none => some ("", hashes)
    | some g =>
      if geomIsValid g = false then some ("", hashes)
      else
        match anyGeometry g with
        | none => none
        | some geometryString =>
          if geometryString = "" then some ("", hashes)
          else
            match styleStep o g props hashes with
            | none => none
            | some (styleDefinition, styleReference, props2, hashes2) =>
              some (styleDefinition ++
                tagA "Placemark" (idAttrs f.id)
                  (placemarkBody props2 o geometryString styleReference), hashes2)

/-- `features.map(feature(options, styleHashesArray)).join('')`, with the
mutable registry threaded left to right. -/
def featuresRun (o : Options) (hashes : List String) : List Feature → Option (String × List String)
  | [] => some ("", hashes)
  | f :: fs =>
    match featureRun o hashes f with
    | none => none
    | some (s, h2) =>
      match featuresRun o h2 fs with
      | none => none
      | some (rest, h3) => some (s ++ rest, h3)

-- ## Document assembler (src/lib/index.ts lines 90-109 and 161-175)

/-- A top-level GeoJSON value: a FeatureCollection (whose `features` field
may be absent), a Feature, a geometry object, or an object with no `type`
discriminator. -/
inductive GeoJSON where
  | featureCollection (features : Option (List Feature))
  | feature (f : Feature)
  | geometry (g : Geometry)
  | untyped

/-- The top-level `type` discriminator string. -/
def geoJsonTypeName : GeoJSON → String
  | .featureCollection _ => "FeatureCollection"
  | .feature _ => "Feature"
  | .geometry g => geomTypeName g
  | .untyped => ""

/-- `root(geojson, options)`: empty for a falsy `type`; dispatch on the
discriminator with a fresh style registry; other recognized-geometry types
are wrapped as an anonymous feature with empty properties. -/
def rootRun (g : GeoJSON) (o : Options) : Option String :=
  if geoJsonTypeName g = "" then some ""
  else
    match g with
    | .featureCollection none => some ""
    | .featureCollection (some fs) => (featuresRun o [] fs).map Prod.fst
    | .feature f => (featureRun o [] f).map Prod.fst
    | .geometry geo =>
      (featureRun o [] { geometry := some geo, properties := some ([] : Properties) }).map Prod.fst
    | .untyped => some ""

/-- The fixed XML declaration. -/
def xmlHeader : String := "<?xml version=\"1.0\" encoding=\"UTF-8\"?>"

/-- `tokml(geojson, options)`: declaration plus `<kml><Document>` envelope
around document name/description and the converted body. -/
def tokml (g : GeoJSON) (o : Options) : Option String :=
  (rootRun g o).map (fun body =>
    xmlHeader ++
      tagA "kml" [("xmlns", .vStr "http://www.opengis.net/kml/2.2")]
        (tag "Document" (documentNameStr o ++ documentDescriptionStr o ++ body)))

-- ## Mutable-object model of the property handling (for the frame claim)

/-- A heap of property objects; a reference is an index into it. This makes
the aliasing behaviour of `feature` explicit: `removeMarkerStyles` /
`removePolygonAndLineStyles` mutate the object passed to them in place, and
`feature` passes them the fresh shallow copy `{...properties}` (lines
129 and 136), never the caller's object. -/
structure Store where
  objs : List Properties

/-- Read the object at a reference. -/
def Store.getObj (s : Store) (r : Nat) : Properties :=
  s.objs.getD r []

/-- Overwrite the object at a reference. -/
def Store.setObj (s : Store) (r : Nat) (p : Properties) : Store :=
  ⟨s.objs.set r p⟩

/-- Allocate a new object (`{...p}`), returning the extended store and the
fresh reference. -/
def Store.alloc (s : Store) (p : Properties) : Store × Nat :=
  (⟨s.objs ++ [p]⟩, s.objs.length)

/-- `delete obj[k]` in place at a reference. -/
def deleteKeyAt (s : Store) (r : Nat) (k : String) : Store :=
  s.setObj r (removeKey k (s.getObj r))

/-- `removeMarkerStyles(obj)`: the four in-place deletes of lines 269-275. -/
def removeMarkerStylesAt (s : Store) (r : Nat) : Store :=
  deleteKeyAt (deleteKeyAt (deleteKeyAt (deleteKeyAt s r "marker-shape") r "marker-symbol") r "marker-color") r "marker-size"

/-- `removePolygonAndLineStyles(obj)`: the five in-place deletes of lines 300-307. -/
def removePolygonAndLineStylesAt (s : Store) (r : Nat) : Store :=
  deleteKeyAt (deleteKeyAt (deleteKeyAt (deleteKeyAt (deleteKeyAt s r "stroke") r "stroke-width") r "stroke-opacity") r "fill") r "fill-opacity"

/-- The simplestyle block of `feature` over the object store: the feature's
properties live at reference `r`; on a style path the code allocates the
shallow copy `{...properties}` and mutates only that copy. Returns
(styleDefinition, styleReference, reference of the properties used for the
Placemark, registry, store). -/
def styleStepS (o : Options) (g : Geometry) (r : Nat) (hashes : List String) (s : Store) :
    Option (String × String × Nat × List String × Store) :=
  if rSimplestyle o = false then some ("", "", r, hashes, s)
  else
    match hashStyleOpt (s.getObj r) with
    | none => none
    | some styleHash =>
      if styleHash = "" then some ("", "", r, hashes, s)
      else if isPointKind g && hasMarkerStyle (s.getObj r) then
        if hashes.contains styleHash then
          let (s1, r1) := s.alloc (s.getObj r)
          some ("", tag "styleUrl" ("#" ++ styleHash), r1, hashes, removeMarkerStylesAt s1 r1)
        else
          match markerStyleOpt (s.getObj r) styleHash with
          | none => none
          | some styleDefinition =>
            let (s1, r1) := s.alloc (s.getObj r)
            some (styleDefinition, tag "styleUrl" ("#" ++ styleHash), r1,
              hashes ++ [styleHash], removeMarkerStylesAt s1 r1)
      else if (isPolygonKind g || isLineKind g) && hasPolygonAndLineStyle (s.getObj r) then
        if hashes.contains styleHash then
          let (s1, r1) := s.alloc (s.getObj r)
          some ("", tag "styleUrl" ("#" ++ styleHash), r1, hashes, removePolygonAndLineStylesAt s1 r1)
        else
          let (s1, r1) := s.alloc (s.getObj r)
          some (polygonAndLineStyle (s.getObj r) styleHash, tag "styleUrl" ("#" ++ styleHash), r1,
            hashes ++ [styleHash], removePolygonAndLineStylesAt s1 r1)
      else some ("", "", r, hashes, s)

/-- A feature whose properties object lives in the store. -/
structure FeatureS where
  id : Option PValue := none
  geometry : Option Geometry := none
  properties : Option Nat := none

/-- `feature(options, styleHashesArray)(f)` over the object store. -/
def featureRunS (o : Options) (hashes : List String) (f : FeatureS) (s : Store) :
    Option (String × List String × Store) :=
  match f.properties with
  | none => some ("", hashes, s)
  | some r =>
    match f.geometry with
    | none => some ("", hashes, s)
    | some g =>
      if geomIsValid g = false then some ("", hashes, s)
      else
        match anyGeometry g with
        | none => none
        | some geometryString =>
          if geometryString = "" then some ("", hashes, s)
          else
            match styleStepS o g r hashes s with
            | none => none
            | some (styleDefinition, styleReference, r2, hashes2, s2) =>
              some (styleDefinition ++
                tagA "Placemark" (idAttrs f.id)
                  (placemarkBody (s2.getObj r2) o geometryString styleReference), hashes2, s2)

/-- The collection loop over the object store. -/
def featuresRunS (o : Options) (hashes : List String) : List FeatureS → Store → Option (String × List String × Store)
  | [], s => some ("", hashes, s)
  | f :: fs, s =>
    match featureRunS o hashes f s with
    | none => none
    | some (str, h2, s2) =>
      match featuresRunS o h2 fs s2 with
      | none => none
      | some (rest, h3, s3) => some (str ++ rest, h3, s3)

-- ## Helpers for stating the claims

/-- Number of (possibly overlapping) occurrences of `pat` in `l`. -/
def occCountL (pat : List Char) : List Char → Nat
  | [] => 0
  | c :: rest => (if pat.isPrefixOf (c :: rest) then 1 else 0) + occCountL pat rest

/-- Number of occurrences of a non-empty pattern in a string. -/
def occCount (s pat : String) : Nat := occCountL pat.data s.data

/-- Whether `pat` occurs in `s`. -/
def containsSubstr (s pat : String) : Bool := occCount s pat != 0

/-- The eight property keys read by `hashStyle`. -/
def styleHashKeys : List String :=
  ["marker-symbol", "marker-color", "marker-size", "stroke", "stroke-width",
   "stroke-opacity", "fill", "fill-opacity"]

-- ## General string lemmas

theorem strExt {s t : String} (h : s.data = t.data) : s = t := by
  cases s
  cases t
  exact congrArg String.mk h

theorem str_empty_append (s : String) : "" ++ s = s := by
  apply strExt
  simp [String.data_append]

theorem str_append_empty (s : String) : s ++ "" = s := by
  apply strExt
  simp [String.data_append]

theorem str_append_eq_empty_iff (a b : String) : a ++ b = "" ↔ a = "" ∧ b = "" := by
  constructor
  · intro h
    have hd : a.data ++ b.data = [] := by
      have := congrArg String.data h
      simpa [String.data_append] using this
    rcases List.append_eq_nil.mp hd with ⟨ha, hb⟩
    exact ⟨strExt (by simpa using ha), strExt (by simpa using hb)⟩
  · rintro ⟨rfl, rfl⟩
    rfl

theorem tag_verbatim (el contents : String) :
    tag el contents = "<" ++ el ++ ">" ++ contents ++ "</" ++ el ++ ">" := by
  simp only [tag, tagA, attrString, List.isEmpty_nil, if_pos]
  rw [str_append_empty]

theorem escapeList_append (l1 l2 : List Char) :
    escapeList (l1 ++ l2) = escapeList l1 ++ escapeList l2 := by
  induction l1 with
  | nil => simp [escapeList, str_empty_append]
  | cons c cs ih => simp [escapeList, ih, String.append_assoc]

-- ## Claim C3

/-- C3 (counterexample): the claim states that every non-collection geometry
with a present-but-empty coordinate sequence converts to the empty string;
but a `Point` with `coordinates: []` converts to
`<Point><coordinates></coordinates></Point>`, which is not empty. -/
theorem point_empty_coordinates_cex :
    anyGeometry (Geometry.point (some [])) =
      some "<Point><coordinates></coordinates></Point>" ∧
    anyGeometry (Geometry.point (some [])) ≠ some "" := by
  constructor
  · rfl
  · decide

/-- C3 (amended): a present-but-empty coordinate sequence yields empty markup
for `Polygon`, `MultiPoint`, `MultiPolygon` and `MultiLineString` only;
`Point` and `LineString` instead yield an element with an empty
`<coordinates>` body. -/
theorem empty_coordinates_markup :
    anyGeometry (Geometry.polygon (some [])) = some "" ∧
    anyGeometry (Geometry.multiPoint (some [])) = some "" ∧
    anyGeometry (Geometry.multiPolygon (some [])) = some "" ∧
    anyGeometry (Geometry.multiLineString (some [])) = some "" ∧
    anyGeometry (Geometry.point (some [])) =
      some "<Point><coordinates></coordinates></Point>" ∧
    anyGeometry (Geometry.lineString (some [])) =
      some "<LineString><coordinates></coordinates></LineString>" := by
  refine ⟨rfl, rfl, rfl, rfl, by decide, by decide⟩

-- ## Claim C7

/-- C7: `escape` maps `null`/absent input to the empty string, stringifies
any other scalar and replaces each of the five characters `& " ' < >` by its
named entity exactly once: escaping distributes over concatenation, sends
each special character to its entity and leaves every other character
unchanged (so entities introduced for one character are never re-scanned),
and `escape("&<>\"'")` is `&amp;&lt;&gt;&quot;&apos;`. -/
theorem encode_spec :
    encode none = "" ∧
    encode (some PValue.vNull) = "" ∧
    (∀ v : PValue, v ≠ PValue.vNull → encode (some v) = escapeString (jsToString v)) ∧
    (∀ s : String, encode (some (PValue.vStr s)) = escapeString s) ∧
    (∀ a b : String, escapeString (a ++ b) = escapeString a ++ escapeString b) ∧
    (∀ c : Char, escapeString (String.mk [c]) = escChar c) ∧
    escChar '&' = "&amp;" ∧ escChar '<' = "&lt;" ∧ escChar '>' = "&gt;" ∧
    escChar '"' = "&quot;" ∧ escChar '\'' = "&apos;" ∧
    (∀ c : Char, c ≠ '&' → c ≠ '<' → c ≠ '>' → c ≠ '"' → c ≠ '\'' →
      escChar c = String.mk [c]) ∧
    escapeString "&<>\"'" = "&amp;&lt;&gt;&quot;&apos;" := by
  refine ⟨rfl, rfl, ?_, fun s => rfl, ?_, ?_, by decide, by decide, by decide, by decide, by decide, ?_, by decide⟩
  · intro v hv
    cases v with
    | vStr s => rfl
    | vNum q => rfl
    | vBool b => rfl
    | vNull => exact absurd rfl hv
  · intro a b
    simp only [escapeString, String.data_append]
    exact escapeList_append a.data b.data
  · intro c
    simp [escapeString, escapeList, str_append_empty]
  · intro c h1 h2 h3 h4 h5
    simp [escChar, h1, h2, h3, h4, h5]

/-- Witness for C7 at concrete inputs. -/
theorem encode_spec_witness :
    ((PValue.vBool true ≠ PValue.vNull) ∧
      encode (some (PValue.vBool true)) = escapeString (jsToString (PValue.vBool true))) ∧
    (('x' ≠ '&') ∧ escChar 'x' = String.mk ['x']) :=
  ⟨⟨by decide, encode_spec.2.2.1 (PValue.vBool true) (by decide)⟩,
   ⟨by decide, encode_spec.2.2.2.2.2.2.2.2.2.2.2.1 'x' (by decide) (by decide) (by decide) (by decide) (by decide)⟩⟩

-- ## Claim C8

/-- C8: for a top-level object whose `type` discriminator is missing or
unrecognized, the conversion returns the XML declaration plus the
`kml`/`Document` envelope with an empty body (the total model returns `some`,
so no exception is raised). -/
theorem tokml_invalid_root_envelope :
    ∀ (g : GeoJSON) (o : Options),
      (g = GeoJSON.untyped ∨ ∃ t c, g = GeoJSON.geometry (Geometry.unrecognized t c)) →
      rootRun g o = some "" ∧
      tokml g o = some (xmlHeader ++
        tagA "kml" [("xmlns", PValue.vStr "http://www.opengis.net/kml/2.2")]
          (tag "Document" (documentNameStr o ++ documentDescriptionStr o))) := by
  intro g o hg
  have hroot : rootRun g o = some "" := by
    rcases hg with rfl | ⟨t, c, rfl⟩
    · rfl
    · by_cases ht : t = ""
      · subst ht
        rfl
      · have ht' : (t != "") = true := by simp [ht]
        cases c with
        | false =>
          simp [rootRun, geoJsonTypeName, geomTypeName, ht, featureRun, geomIsValid]
        | true =>
          simp [rootRun, geoJsonTypeName, geomTypeName, ht, featureRun, geomIsValid,
            anyGeometry, ht']
  refine ⟨hroot, ?_⟩
  rw [tokml, hroot]
  exact congrArg some (by simp only [str_append_empty])

/-- Witness for C8 at a concrete input. -/
theorem tokml_invalid_root_envelope_witness :
    (GeoJSON.untyped = GeoJSON.untyped ∨
      ∃ t c, GeoJSON.untyped = GeoJSON.geometry (Geometry.unrecognized t c)) ∧
    rootRun GeoJSON.untyped { documentName := some "d" } = some "" ∧
    tokml GeoJSON.untyped { documentName := some "d" } = some (xmlHeader ++
      tagA "kml" [("xmlns", PValue.vStr "http://www.opengis.net/kml/2.2")]
        (tag "Document" (documentNameStr { documentName := some "d" } ++
          documentDescriptionStr { documentName := some "d" }))) :=
  ⟨Or.inl rfl, tokml_invalid_root_envelope GeoJSON.untyped { documentName := some "d" } (Or.inl rfl)⟩

-- ## Claim C2

/-- C2 (counterexample): the claim states that a configured `documentName`
appears with its text content XML-escaped, but the code inserts the option
string verbatim: with `documentName = "a<b"` the output contains
`<name>a<b</name>` and not the escaped `<name>a&lt;b</name>`. -/
theorem documentName_not_escaped_cex :
    tokml GeoJSON.untyped { documentName := some "a<b" } =
      some "<?xml version=\"1.0\" encoding=\"UTF-8\"?><kml xmlns=\"http://www.opengis.net/kml/2.2\"><Document><name>a<b</name></Document></kml>" ∧
    (tokml GeoJSON.untyped { documentName := some "a<b" }).map
      (fun s => (containsSubstr s "<name>a<b</name>", containsSubstr s "<name>a&lt;b</name>")) =
      some (true, false) := by
  constructor
  · rfl
  · decide

/-- C2 (amended): for every configuration in which `documentName` and/or
`documentDescription` is set, the returned document contains the
corresponding `<name>`/`<description>` elements as direct children of
`<Document>`, placed (in that order) before the converted body and hence
before any Placemark — but with their text content inserted verbatim, not
XML-escaped. -/
theorem document_name_description_position :
    ∀ (g : GeoJSON) (o : Options) (body : String),
      rootRun g o = some body →
      tokml g o = some (xmlHeader ++
        tagA "kml" [("xmlns", PValue.vStr "http://www.opengis.net/kml/2.2")]
          (tag "Document" (documentNameStr o ++ documentDescriptionStr o ++ body))) ∧
      (∀ n, o.documentName = some n → documentNameStr o = "<name>" ++ n ++ "</name>") ∧
      (o.documentName = none → documentNameStr o = "") ∧
      (∀ d, o.documentDescription = some d →
        documentDescriptionStr o = "<description>" ++ d ++ "</description>") ∧
      (o.documentDescription = none → documentDescriptionStr o = "") := by
  intro g o body hroot
  refine ⟨?_, ?_, ?_, ?_, ?_⟩
  · rw [tokml, hroot]
    rfl
  · intro n hn
    simp only [documentNameStr, hn]
    rw [tag_verbatim]
    apply strExt
    simp only [String.data_append, List.append_assoc]
    rfl
  · intro hn
    simp only [documentNameStr, hn]
  · intro d hd
    simp only [documentDescriptionStr, hd]
    rw [tag_verbatim]
    apply strExt
    simp only [String.data_append, List.append_assoc]
    rfl
  · intro hd
    simp only [documentDescriptionStr, hd]

/-- Witness for C2 (amended) at a concrete configuration. -/
theorem document_name_description_position_witness :
    tokml GeoJSON.untyped { documentName := some "N", documentDescription := some "D" } =
      some (xmlHeader ++
        tagA "kml" [("xmlns", PValue.vStr "http://www.opengis.net/kml/2.2")]
          (tag "Document"
            (documentNameStr { documentName := some "N", documentDescription := some "D" } ++
              documentDescriptionStr { documentName := some "N", documentDescription := some "D" } ++ ""))) ∧
    documentNameStr { documentName := some "N", documentDescription := some "D" } =
      "<name>" ++ "N" ++ "</name>" ∧
    documentDescriptionStr { documentName := some "N", documentDescription := some "D" } =
      "<description>" ++ "D" ++ "</description>" := by
  have h := document_name_description_position GeoJSON.untyped
    { documentName := some "N", documentDescription := some "D" } "" rfl
  exact ⟨h.1, h.2.1 "N" rfl, h.2.2.2.1 "D" rfl⟩

-- ## Claim C6

/-- C6: a feature whose properties are absent, or whose geometry is absent or
invalid, or whose geometry markup is empty, contributes the empty string and
leaves the style registry unchanged; a two-feature collection in which one
feature lacks a geometry produces exactly one Placemark. -/
theorem feature_empty_cases :
    (∀ (o : Options) (hashes : List String) (f : Feature),
        (f.properties = none ∨ f.geometry = none ∨
          (∃ g, f.geometry = some g ∧ geomIsValid g = false) ∨
          (∃ g, f.geometry = some g ∧ anyGeometry g = some "")) →
        featureRun o hashes f = some ("", hashes)) ∧
    (rootRun (GeoJSON.featureCollection (some
        [{ geometry := some (.point (some [⟨1, 1⟩, ⟨2, 1⟩])), properties := some [] },
         { properties := some [("name", PValue.vStr "x")] }])) {}).map
      (fun s => occCount s "<Placemark") = some 1 := by
  constructor
  · intro o hashes f h
    rcases h with hp | hgnone | ⟨g, hg, hval⟩ | ⟨g, hg, hany⟩
    · rw [featureRun.eq_def, hp]
    · rw [featureRun.eq_def]
      cases hprop : f.properties with
      | none => rfl
      | some p => rw [hgnone]
    · rw [featureRun.eq_def]
      cases hprop : f.properties with
      | none => rfl
      | some p =>
        rw [hg]
        simp [hval]
    · rw [featureRun.eq_def]
      cases hprop : f.properties with
      | none => rfl
      | some p =>
        rw [hg]
        by_cases hval : geomIsValid g = false
        · simp [hval]
        · simp only [hval, if_false, hany]
          simp
  · decide

/-- Witness for C6 at a concrete feature without geometry. -/
theorem feature_empty_cases_witness :
    featureRun {} ["h"] { properties := some [("a", PValue.vStr "b")] } = some ("", ["h"]) :=
  feature_empty_cases.1 {} ["h"] { properties := some [("a", PValue.vStr "b")] } (Or.inr (Or.inl rfl))

-- ## Style-hash lemmas

theorem hashStyleOpt_some_shape {p : Properties} {h : String} (hh : hashStyleOpt p = some h) :
    ∃ mc st fl,
      hashSegColor "mc" (lookupP p "marker-color") = some mc ∧
      hashSegColor "s" (lookupP p "stroke") = some st ∧
      hashSegColor "f" (lookupP p "fill") = some fl ∧
      h = hashSegPlain "ms" (lookupP p "marker-symbol") ++ mc ++
          hashSegPlain "ms" (lookupP p "marker-size") ++ st ++
          hashSegDecimal "sw" (lookupP p "stroke-width") ++
          hashSegDecimal "mo" (lookupP p "stroke-opacity") ++
          fl ++ hashSegDecimal "fo" (lookupP p "fill-opacity") := by
  simp only [hashStyleOpt, bind, Option.bind_eq_some, Option.some.injEq] at hh
  obtain ⟨mc, hmc, st, hst, fl, hfl, hh⟩ := hh
  exact ⟨mc, st, fl, hmc, hst, hfl, hh.symm⟩

theorem hashSegPlain_ne_empty {pre : String} (hpre : pre ≠ "") {ov : Option PValue}
    (ht : truthy ov = true) : hashSegPlain pre ov ≠ "" := by
  cases ov with
  | none => simp [truthy] at ht
  | some v =>
    simp only [truthy] at ht
    simp only [hashSegPlain, ht, if_true]
    intro he
    exact hpre ((str_append_eq_empty_iff _ _).mp he).1

theorem hashSegColor_some_ne_empty {pre : String} (hpre : pre ≠ "") {ov : Option PValue}
    {mc : String} (ht : truthy ov = true) (h : hashSegColor pre ov = some mc) : mc ≠ "" := by
  cases ov with
  | none => simp [truthy] at ht
  | some v =>
    simp only [truthy] at ht
    cases v with
    | vStr s =>
      simp only [hashSegColor, ht, if_true, Option.some.injEq] at h
      intro he
      rw [← h] at he
      exact hpre ((str_append_eq_empty_iff _ _).mp he).1
    | vNum q => simp [hashSegColor, ht] at h
    | vBool b => simp [hashSegColor, ht] at h
    | vNull => simp [truthyV] at ht

theorem hash_ne_empty_of_marker {p : Properties} {h : String}
    (hm : hasMarkerStyle p = true) (hh : hashStyleOpt p = some h) : h ≠ "" := by
  obtain ⟨mc, st, fl, hmc, hst, hfl, heq⟩ := hashStyleOpt_some_shape hh
  intro h0
  rw [heq] at h0
  simp only [str_append_eq_empty_iff] at h0
  obtain ⟨⟨⟨⟨⟨⟨⟨hsym, hmc0⟩, hsize⟩, -⟩, -⟩, -⟩, -⟩, -⟩ := h0
  simp only [hasMarkerStyle, Bool.or_eq_true] at hm
  rcases hm with (hsz | hsy) | hco
  · exact hashSegPlain_ne_empty (by decide) hsz hsize
  · exact hashSegPlain_ne_empty (by decide) hsy hsym
  · exact hashSegColor_some_ne_empty (by decide) hco hmc hmc0

-- ## Property-map lemmas

theorem lookup_removeKey_self (k : String) (p : Properties) :
    lookupP (removeKey k p) k = none := by
  induction p with
  | nil => rfl
  | cons kv t ih =>
    by_cases hk : kv.1 = k
    · simpa [removeKey, List.filter, hk] using ih
    · simp only [removeKey, List.filter] at ih ⊢
      rw [show (kv.1 != k) = true by simp [hk]]
      simpa [lookupP, List.lookup, show (k == kv.1) = false by simp [Ne.symm hk]] using ih

theorem lookup_removeKey_ne {k k' : String} (p : Properties) (h : k ≠ k') :
    lookupP (removeKey k' p) k = lookupP p k := by
  induction p with
  | nil => rfl
  | cons kv t ih =>
    by_cases hk : kv.1 = k'
    · rw [show removeKey k' (kv :: t) = removeKey k' t by simp [removeKey, List.filter, hk], ih]
      simp [lookupP, List.lookup, show (k == kv.1) = false by simp [hk, h]]
    · rw [show removeKey k' (kv :: t) = kv :: removeKey k' t by
        simp only [removeKey, List.filter]
        rw [show (kv.1 != k') = true by simp [hk]]]
      by_cases hkk : k = kv.1
      · simp [lookupP, List.lookup, hkk]
      · simp only [lookupP, List.lookup, show (k == kv.1) = false by simp [hkk]]
        exact ih

-- ## Claim C4

/-- C4 (counterexample): the claim states `marker-shape` is always stripped
under simplestyle; but a Point feature whose only property is
`marker-shape: "pin"` has no truthy marker style key, takes no style path,
and its ExtendedData retains the `marker-shape` entry. -/
theorem marker_shape_retained_cex :
    featureRun { simplestyle := some true } []
        { geometry := some (.point (some [⟨0, 1⟩, ⟨0, 1⟩])),
          properties := some [("marker-shape", PValue.vStr "pin")] } =
      some ("<Placemark><ExtendedData><Data name=\"marker-shape\"><value>pin</value></Data></ExtendedData><Point><coordinates>0,0</coordinates></Point></Placemark>", []) ∧
    (featureRun { simplestyle := some true } []
        { geometry := some (.point (some [⟨0, 1⟩, ⟨0, 1⟩])),
          properties := some [("marker-shape", PValue.vStr "pin")] }).map
      (fun r => containsSubstr r.1 "<Data name=\"marker-shape\">") = some true := by
  constructor
  · rfl
  · decide

theorem styleStep_marker_eq {o : Options} {g : Geometry} {props : Properties}
    {h : String} (hashes : List String)
    (ho : rSimplestyle o = true) (hhash : hashStyleOpt props = some h) (hne : h ≠ "")
    (hpm : (isPointKind g && hasMarkerStyle props) = true) :
    styleStep o g props hashes =
      (if hashes.contains h then
        some ("", tag "styleUrl" ("#" ++ h), removeMarkerStyles props, hashes)
      else
        (markerStyleOpt props h).map
          (fun sd => (sd, tag "styleUrl" ("#" ++ h), removeMarkerStyles props, hashes ++ [h]))) := by
  rw [styleStep, ho]
  simp only [Bool.true_eq_false, if_false, hhash]
  rw [if_neg hne, hpm]
  simp only [if_true]
  cases hc : hashes.contains h with
  | true => simp
  | false =>
    simp only [Bool.false_eq_true, if_false]
    cases markerStyleOpt props h with
    | none => rfl
    | some sd => rfl

/-- C4 (amended): under simplestyle, `marker-shape` is stripped from the
properties used for ExtendedData exactly when the marker style path triggers
(Point/MultiPoint geometry with at least one truthy marker style key):
on that path the properties are replaced by `removeMarkerStyles` of a copy, in
which `marker-shape` is never present (that is the sense in which it is
removed regardless of whether it was read); when simplestyle is off, or the
style signature is empty, the properties pass through unchanged. -/
theorem marker_shape_strip_on_marker_path :
    (∀ p : Properties, lookupP (removeMarkerStyles p) "marker-shape" = none) ∧
    (∀ (o : Options) (g : Geometry) (props : Properties) (hashes : List String)
        (sd sr : String) (props2 : Properties) (hashes2 : List String),
        rSimplestyle o = true → isPointKind g = true → hasMarkerStyle props = true →
        styleStep o g props hashes = some (sd, sr, props2, hashes2) →
        props2 = removeMarkerStyles props) ∧
    (∀ (o : Options) (g : Geometry) (props : Properties) (hashes : List String),
        rSimplestyle o = false → styleStep o g props hashes = some ("", "", props, hashes)) := by
  refine ⟨?_, ?_, ?_⟩
  · intro p
    rw [removeMarkerStyles, lookup_removeKey_ne _ (by decide), lookup_removeKey_ne _ (by decide),
      lookup_removeKey_ne _ (by decide), lookup_removeKey_self]
  · intro o g props hashes sd sr props2 hashes2 ho hpt hm hstep
    have hpm : (isPointKind g && hasMarkerStyle props) = true := by rw [hpt, hm]; rfl
    cases hhash : hashStyleOpt props with
    | none =>
      rw [styleStep, ho] at hstep
      simp only [Bool.true_eq_false, if_false, hhash] at hstep
      exact absurd hstep (by simp)
    | some h =>
      have hne : h ≠ "" := hash_ne_empty_of_marker hm hhash
      rw [styleStep_marker_eq hashes ho hhash hne hpm] at hstep
      cases hc : hashes.contains h with
      | true =>
        rw [hc] at hstep
        simp only [if_true, Option.some.injEq, Prod.mk.injEq] at hstep
        exact hstep.2.2.1.symm
      | false =>
        rw [hc] at hstep
        simp only [Bool.false_eq_true, if_false, Option.map_eq_some'] at hstep
        obtain ⟨sd', -, hstep⟩ := hstep
        simp only [Prod.mk.injEq] at hstep
        exact hstep.2.2.1.symm
  · intro o g props hashes ho
    rw [styleStep, ho]
    simp

/-- Witness for C4 (amended) at a concrete marker-path feature. -/
theorem marker_shape_strip_on_marker_path_witness :
    ([] : Properties) =
      removeMarkerStyles [("marker-shape", PValue.vStr "pin"), ("marker-symbol", PValue.vStr "a")] :=
  marker_shape_strip_on_marker_path.2.1 { simplestyle := some true }
    (Geometry.point (some [])) [("marker-shape", PValue.vStr "pin"), ("marker-symbol", PValue.vStr "a")]
    []
    "<Style id=\"msa\"><IconStyle><Icon><href>https://api.tiles.mapbox.com/v3/marker/pin-m-a+7e7e7e.png</href></Icon></IconStyle><hotSpot xunits=\"fraction\" yunits=\"fraction\" x=\"0.5\" y=\"0.5\"></hotSpot></Style>"
    "<styleUrl>#msa</styleUrl>" [] ["msa"]
    (by decide) (by decide) (by decide) (by decide)

-- ## Claim C10

/-- C10: the style signature is not injective on marker style values:
`{'marker-symbol': s}` and `{'marker-size': s}` both hash to `'ms' + s`
(shown here for `s = "a"`, signature `"msa"`), so in one conversion two Point
features carrying these distinct marker styles produce only one `<Style>`
element and the second feature's Placemark references the first feature's
style: the output contains one `<Style ` block, two identical
`<styleUrl>#msa</styleUrl>` references, and the registry holds the single
shared signature. -/
theorem hashStyle_not_injective_dedup :
    ([("marker-symbol", PValue.vStr "a")] : Properties) ≠ [("marker-size", PValue.vStr "a")] ∧
    hashStyleOpt [("marker-symbol", PValue.vStr "a")] = some ("ms" ++ "a") ∧
    hashStyleOpt [("marker-size", PValue.vStr "a")] = some ("ms" ++ "a") ∧
    (featuresRun { simplestyle := some true } []
        [{ geometry := some (.point (some [⟨0, 1⟩, ⟨0, 1⟩])),
           properties := some [("marker-symbol", PValue.vStr "a")] },
         { geometry := some (.point (some [⟨0, 1⟩, ⟨0, 1⟩])),
           properties := some [("marker-size", PValue.vStr "a")] }]).map
      (fun r => (occCount r.1 "<Style ", occCount r.1 "<styleUrl>#msa</styleUrl>", r.2)) =
      some (1, 2, ["msa"]) := by
  refine ⟨by decide, by decide, by decide, by decide⟩

-- ## Claim C1, counterexample

/-- C1 (counterexample): the claim states that two features taking the marker
style path with identical values for the marker-relevant keys share one
signature, one `<Style>` element and one `styleUrl`; but the signature is
computed from all eight style keys, so a second Point feature with the same
`marker-symbol` and an additional `stroke` key gets a different signature
(`"msas555"` vs `"msa"`), a second `<Style>` element is emitted, and the two
Placemarks reference different identifiers. -/
theorem style_dedup_path_keys_cex :
    hashStyleOpt [("marker-symbol", PValue.vStr "a")] = some "msa" ∧
    hashStyleOpt [("marker-symbol", PValue.vStr "a"), ("stroke", PValue.vStr "555")] =
      some "msas555" ∧
    hasMarkerStyle [("marker-symbol", PValue.vStr "a")] = true ∧
    hasMarkerStyle [("marker-symbol", PValue.vStr "a"), ("stroke", PValue.vStr "555")] = true ∧
    (featuresRun { simplestyle := some true } []
        [{ geometry := some (.point (some [⟨0, 1⟩, ⟨0, 1⟩])),
           properties := some [("marker-symbol", PValue.vStr "a")] },
         { geometry := some (.point (some [⟨0, 1⟩, ⟨0, 1⟩])),
           properties := some [("marker-symbol", PValue.vStr "a"), ("stroke", PValue.vStr "555")] }]).map
      (fun r => (occCount r.1 "<Style ", occCount r.1 "<styleUrl>#msa</styleUrl>",
        occCount r.1 "<styleUrl>#msas555</styleUrl>", r.2)) =
      some (2, 1, 1, ["msa", "msas555"]) := by
  refine ⟨by decide, by decide, by decide, by decide, by decide⟩

-- ## Color codec lemmas

/-- Lowercase hexadecimal digit character for `n < 16`. -/
def hexDigitChar (n : Nat) : Char :=
  if n < 10 then Char.ofNat (48 + n) else Char.ofNat (87 + n)

/-- The canonical 2-digit lowercase hexadecimal rendering of `n ≤ 255`. -/
def hexPad2 (n : Nat) : String :=
  String.mk [hexDigitChar (n / 16), hexDigitChar (n % 16)]

theorem ws_not_hex {c : Char} (h : isJsWhitespace c = true) : isHexDigitChar c = false := by
  rw [Bool.eq_false_iff]
  intro hx
  simp only [isJsWhitespace, Bool.or_eq_true, Bool.and_eq_true, decide_eq_true_eq] at h
  simp only [isHexDigitChar, Bool.or_eq_true, Bool.and_eq_true, decide_eq_true_eq] at hx
  omega

theorem jsHexNaN_pair (x y : Char) :
    jsHexNaN (String.mk [x, y]) = !(isHexDigitChar x && (isHexDigitChar y || isJsWhitespace y)) := by
  show jsHexNaN ⟨[x, y]⟩ = _
  unfold jsHexNaN trimRightWs
  cases hy : isJsWhitespace y with
  | true =>
    have hy' := ws_not_hex hy
    cases hx : isJsWhitespace x with
    | true =>
      have hx' := ws_not_hex hx
      simp [List.dropWhile, hy, hx, hx', hy']
    | false =>
      simp only [List.reverse_cons, List.reverse_nil, List.nil_append, List.cons_append,
        List.dropWhile, hy, hx]
      cases hx2 : isHexDigitChar x <;> simp [hx2, hy']
  | false =>
    simp only [List.reverse_cons, List.reverse_nil, List.nil_append, List.cons_append,
      List.dropWhile, hy]
    cases hx2 : isHexDigitChar x <;> cases hy2 : isHexDigitChar y <;>
      simp [hx2, hy2, List.any, List.reverse]
  
theorem jsHexNaN_double (x : Char) :
    jsHexNaN (String.mk [x, x]) = !isHexDigitChar x := by
  rw [jsHexNaN_pair]
  cases hx : isHexDigitChar x with
  | true => simp
  | false => simp

theorem alpha_pad : ∀ n : Nat, n < 256 →
    jsSliceLast2 ("0" ++ String.mk (natToHexChars n)) = hexPad2 n := by
  decide

theorem floorMul255_le {q : JNum} (hden : 0 < q.den) (_h0 : 0 ≤ q.num)
    (h1 : q.num ≤ (q.den : Int)) : jnumFloorMul255 q ≤ 255 := by
  unfold jnumFloorMul255
  have hdz : (0 : Int) < (q.den : Int) := by exact_mod_cast hden
  rw [Int.fdiv_eq_ediv _ (le_of_lt hdz)]
  have h2 : q.num * 255 ≤ (q.den : Int) * 255 :=
    mul_le_mul_of_nonneg_right h1 (by norm_num)
  have h3 : q.num * 255 / (q.den : Int) ≤ (q.den : Int) * 255 / (q.den : Int) :=
    Int.ediv_le_ediv hdz h2
  rw [Int.mul_ediv_cancel_left _ (ne_of_gt hdz)] at h3
  exact Int.toNat_le.mpr h3

-- ## Claim C5

/-- C5 (counterexample): the claim states that an input which is not 3 or 6
hex digits after an optional leading `#` yields the empty string; but
`replace('#','')` removes the first `#` anywhere, so `toKmlColor("abc#", 1)`
(four characters, one of them not a hex digit, `#` not leading) becomes
`"abc"` and yields `"ffccbbaa"`, not `""`. -/
theorem hexToKmlColor_hash_removal_cex :
    hexToKmlColor (some (.vStr "abc#")) (some (.vNum ⟨1, 1⟩)) = "ffccbbaa" ∧
    "ffccbbaa" ≠ "" := by
  exact ⟨by decide, by decide⟩

theorem hexToKmlColor_three (s0 : String) (op : Option PValue) (a b c : Char)
    (hd : kmlHexInput s0 = [a, b, c]) :
    hexToKmlColor (some (.vStr s0)) op =
      hexBuild (String.mk [a, a]) (String.mk [b, b]) (String.mk [c, c]) op := by
  simp only [hexToKmlColor, hd, List.length_cons, List.length_nil]
  norm_num

theorem hexToKmlColor_six (s0 : String) (op : Option PValue) (c1 c2 c3 c4 c5 c6 : Char)
    (hd : kmlHexInput s0 = [c1, c2, c3, c4, c5, c6]) :
    hexToKmlColor (some (.vStr s0)) op =
      hexBuild (String.mk [c1, c2]) (String.mk [c3, c4]) (String.mk [c5, c6]) op := by
  simp only [hexToKmlColor, hd, List.length_cons, List.length_nil]
  norm_num

/-- C5 (amended): after removing the first `#` occurring anywhere and
lowercasing, a 3-character input of hex digits yields the 8-character
alpha-blue-green-red string with each nibble doubled, and a 6-character input
yields it from the three 2-character channels — except that, through
JavaScript's string-to-number coercion (which trims trailing whitespace), the
second character of a channel may also be whitespace and is then copied into
the output; any other length yields the empty string, as does a non-hex
character in any other position, or a non-string input. The alpha channel is
the 2-digit lowercase hex of `floor(opacity*255)` when the opacity is a
number in `[0,1]` and `"ff"` otherwise. In particular
`toKmlColor("#F00", 0.5) = "7f0000ff"` and `toKmlColor("zzz", 1) = ""`. -/
theorem hexToKmlColor_spec :
    (∀ (s0 : String) (op : Option PValue) (a b c : Char), kmlHexInput s0 = [a, b, c] →
        hexToKmlColor (some (.vStr s0)) op =
          (if isHexDigitChar a && isHexDigitChar b && isHexDigitChar c then
            alphaStr op ++ String.mk [c, c] ++ String.mk [b, b] ++ String.mk [a, a]
          else "")) ∧
    (∀ (s0 : String) (op : Option PValue) (c1 c2 c3 c4 c5 c6 : Char),
        kmlHexInput s0 = [c1, c2, c3, c4, c5, c6] →
        hexToKmlColor (some (.vStr s0)) op =
          (if (isHexDigitChar c1 && (isHexDigitChar c2 || isJsWhitespace c2)) &&
              (isHexDigitChar c3 && (isHexDigitChar c4 || isJsWhitespace c4)) &&
              (isHexDigitChar c5 && (isHexDigitChar c6 || isJsWhitespace c6)) then
            alphaStr op ++ String.mk [c5, c6] ++ String.mk [c3, c4] ++ String.mk [c1, c2]
          else "")) ∧
    (∀ (s0 : String) (op : Option PValue), (kmlHexInput s0).length ≠ 3 →
        (kmlHexInput s0).length ≠ 6 → hexToKmlColor (some (.vStr s0)) op = "") ∧
    (∀ (op : Option PValue) (v : PValue), (∀ s, v ≠ PValue.vStr s) →
        hexToKmlColor (some v) op = "") ∧
    (∀ op : Option PValue, hexToKmlColor none op = "") ∧
    (∀ q : JNum, 0 < q.den → 0 ≤ q.num → q.num ≤ (q.den : Int) →
        alphaStr (some (.vNum q)) = hexPad2 (jnumFloorMul255 q) ∧ jnumFloorMul255 q ≤ 255) ∧
    (∀ v : PValue, (∀ q : JNum, v = PValue.vNum q → ¬(0 ≤ q.num ∧ q.num ≤ (q.den : Int))) →
        alphaStr (some v) = "ff") ∧
    alphaStr none = "ff" ∧
    hexToKmlColor (some (.vStr "#F00")) (some (.vNum ⟨1, 2⟩)) = "7f0000ff" ∧
    hexToKmlColor (some (.vStr "zzz")) (some (.vNum ⟨1, 1⟩)) = "" := by
  refine ⟨?_, ?_, ?_, ?_, fun _ => rfl, ?_, ?_, rfl, by decide, by decide⟩
  · intro s0 op a b c hd
    rw [hexToKmlColor_three s0 op a b c hd]
    simp only [hexBuild, jsHexNaN_double]
    cases ha : isHexDigitChar a <;> cases hb : isHexDigitChar b <;> cases hc : isHexDigitChar c <;>
      simp [ha, hb, hc]
  · intro s0 op c1 c2 c3 c4 c5 c6 hd
    rw [hexToKmlColor_six s0 op c1 c2 c3 c4 c5 c6 hd]
    simp only [hexBuild, jsHexNaN_pair]
    cases h1 : (isHexDigitChar c1 && (isHexDigitChar c2 || isJsWhitespace c2)) <;>
      cases h2 : (isHexDigitChar c3 && (isHexDigitChar c4 || isJsWhitespace c4)) <;>
        cases h3 : (isHexDigitChar c5 && (isHexDigitChar c6 || isJsWhitespace c6)) <;>
          simp [h1, h2, h3]
  · intro s0 op h3 h6
    simp only [hexToKmlColor]
    rw [if_neg h3, if_neg h6]
  · intro op v hv
    cases v with
    | vStr s => exact absurd rfl (hv s)
    | vNum q => rfl
    | vBool b => rfl
    | vNull => rfl
  · intro q hden h0 h1
    have hb := floorMul255_le hden h0 h1
    constructor
    · simp only [alphaStr]
      rw [if_pos ⟨h0, h1⟩]
      exact alpha_pad _ (by omega)
    · exact hb
  · intro v hv
    cases v with
    | vStr s => rfl
    | vNum q => simp only [alphaStr]; rw [if_neg (hv q rfl)]
    | vBool b => rfl
    | vNull => rfl

/-- Witness for C5 (amended) at concrete inputs. -/
theorem hexToKmlColor_spec_witness :
    (kmlHexInput "#0F5" = ['0', 'f', '5'] ∧
      hexToKmlColor (some (.vStr "#0F5")) none =
        (if isHexDigitChar '0' && isHexDigitChar 'f' && isHexDigitChar '5' then
          alphaStr none ++ String.mk ['5', '5'] ++ String.mk ['f', 'f'] ++ String.mk ['0', '0']
        else "")) ∧
    ((0 : Nat) < (2 : Nat) ∧
      alphaStr (some (.vNum ⟨1, 2⟩)) = hexPad2 (jnumFloorMul255 ⟨1, 2⟩)) ∧
    ((kmlHexInput "toolong").length ≠ 3 ∧ (kmlHexInput "toolong").length ≠ 6 ∧
      hexToKmlColor (some (.vStr "toolong")) none = "") :=
  ⟨⟨by decide, hexToKmlColor_spec.1 "#0F5" none '0' 'f' '5' (by decide)⟩,
   ⟨by decide, (hexToKmlColor_spec.2.2.2.2.2.1 ⟨1, 2⟩ (by decide) (by decide) (by decide)).1⟩,
   ⟨by decide, by decide,
    hexToKmlColor_spec.2.2.1 "toolong" none (by decide) (by decide)⟩⟩

-- ## Hash congruence and injectivity-on-color lemmas

theorem hashStyleOpt_congr {p q : Properties}
    (h : ∀ k ∈ styleHashKeys, lookupP p k = lookupP q k) :
    hashStyleOpt p = hashStyleOpt q := by
  have h1 := h "marker-symbol" (by decide)
  have h2 := h "marker-color" (by decide)
  have h3 := h "marker-size" (by decide)
  have h4 := h "stroke" (by decide)
  have h5 := h "stroke-width" (by decide)
  have h6 := h "stroke-opacity" (by decide)
  have h7 := h "fill" (by decide)
  have h8 := h "fill-opacity" (by decide)
  simp only [hashStyleOpt, h1, h2, h3, h4, h5, h6, h7, h8]

theorem hasMarkerStyle_congr {p q : Properties}
    (h : ∀ k ∈ styleHashKeys, lookupP p k = lookupP q k) :
    hasMarkerStyle p = hasMarkerStyle q := by
  have h1 := h "marker-symbol" (by decide)
  have h2 := h "marker-color" (by decide)
  have h3 := h "marker-size" (by decide)
  simp only [hasMarkerStyle, h1, h2, h3]

theorem hashStyle_color_ne {p q : Properties} {h h' c1 c3 : String}
    (hagree : ∀ k ∈ styleHashKeys, k ≠ "marker-color" → lookupP p k = lookupP q k)
    (hc1 : lookupP p "marker-color" = some (.vStr c1))
    (hc3 : lookupP q "marker-color" = some (.vStr c3))
    (ht1 : c1 ≠ "") (ht3 : c3 ≠ "")
    (hdiff : removeFirstChar '#' c1.data ≠ removeFirstChar '#' c3.data)
    (hp : hashStyleOpt p = some h) (hq : hashStyleOpt q = some h') : h ≠ h' := by
  obtain ⟨mcp, stp, flp, hmcp, hstp, hflp, hep⟩ := hashStyleOpt_some_shape hp
  obtain ⟨mcq, stq, flq, hmcq, hstq, hflq, heq⟩ := hashStyleOpt_some_shape hq
  rw [hc1] at hmcp
  rw [hc3] at hmcq
  have ht1' : truthyV (.vStr c1) = true := by simp [truthyV, ht1]
  have ht3' : truthyV (.vStr c3) = true := by simp [truthyV, ht3]
  simp only [hashSegColor, ht1', if_true, Option.some.injEq] at hmcp
  simp only [hashSegColor, ht3', if_true, Option.some.injEq] at hmcq
  have e1 : lookupP p "marker-symbol" = lookupP q "marker-symbol" :=
    hagree "marker-symbol" (by decide) (by decide)
  have e3 : lookupP p "marker-size" = lookupP q "marker-size" :=
    hagree "marker-size" (by decide) (by decide)
  have e4 : stp = stq := by
    rw [hagree "stroke" (by decide) (by decide)] at hstp
    exact Option.some.inj (hstp.symm.trans hstq)
  have e5 : lookupP p "stroke-width" = lookupP q "stroke-width" :=
    hagree "stroke-width" (by decide) (by decide)
  have e6 : lookupP p "stroke-opacity" = lookupP q "stroke-opacity" :=
    hagree "stroke-opacity" (by decide) (by decide)
  have e7 : flp = flq := by
    rw [hagree "fill" (by decide) (by decide)] at hflp
    exact Option.some.inj (hflp.symm.trans hflq)
  have e8 : lookupP p "fill-opacity" = lookupP q "fill-opacity" :=
    hagree "fill-opacity" (by decide) (by decide)
  intro hEq
  rw [hep, heq, e1, e3, e4, e5, e6, e7, e8, ← hmcp, ← hmcq] at hEq
  have hd := congrArg String.data hEq
  simp only [String.data_append, List.append_assoc] at hd
  have h2 := List.append_cancel_left hd
  have h3 := List.append_cancel_left h2
  exact hdiff (List.append_cancel_right h3)

theorem featureRun_marker {o : Options} {g : Geometry} {props : Properties} {m h : String}
    (hashes : List String) (fid : Option PValue)
    (ho : rSimplestyle o = true) (hval : geomIsValid g = true) (hany : anyGeometry g = some m)
    (hm : m ≠ "") (hhash : hashStyleOpt props = some h) (hne : h ≠ "")
    (hpm : (isPointKind g && hasMarkerStyle props) = true) :
    featureRun o hashes ⟨fid, some g, some props⟩ =
      (if hashes.contains h then
        some (tagA "Placemark" (idAttrs fid)
          (placemarkBody (removeMarkerStyles props) o m (tag "styleUrl" ("#" ++ h))), hashes)
      else
        (markerStyleOpt props h).map (fun sd =>
          (sd ++ tagA "Placemark" (idAttrs fid)
            (placemarkBody (removeMarkerStyles props) o m (tag "styleUrl" ("#" ++ h))),
           hashes ++ [h]))) := by
  rw [featureRun.eq_def]
  simp only [hval, Bool.true_eq_false, if_false, hany]
  rw [if_neg hm]
  rw [styleStep_marker_eq hashes ho hhash hne hpm]
  cases hc : hashes.contains h with
  | true =>
    simp only [if_true]
    rw [str_empty_append]
  | false =>
    simp only [Bool.false_eq_true, if_false]
    cases markerStyleOpt props h with
    | none => rfl
    | some sd => rfl

-- ## Claim C1, amended

/-- C1 (amended): during one conversion call with simplestyle enabled, two
marker-path features with identical values for all eight style-signature keys
(the signature is computed from the marker and the stroke/fill keys alike,
regardless of the path taken) compute the same signature; exactly one
`<Style>` element with that signature as id is emitted, by the first such
feature, and both Placemarks carry a `styleUrl` reference to it; a further
feature with a different relevant value (here a different `marker-color`,
which always yields a different signature) produces a second, distinct
`<Style>` block with its own reference. -/
theorem style_dedup_all_keys :
    ∀ (o : Options) (p1 p2 p3 : Properties) (g1 g2 g3 : Geometry)
      (id1 id2 id3 : Option PValue) (m1 m2 m3 h hh sd1 sd3 c1 c3 : String),
      rSimplestyle o = true →
      isPointKind g1 = true → isPointKind g2 = true → isPointKind g3 = true →
      geomIsValid g1 = true → geomIsValid g2 = true → geomIsValid g3 = true →
      anyGeometry g1 = some m1 → anyGeometry g2 = some m2 → anyGeometry g3 = some m3 →
      m1 ≠ "" → m2 ≠ "" → m3 ≠ "" →
      (∀ k ∈ styleHashKeys, lookupP p2 k = lookupP p1 k) →
      hasMarkerStyle p1 = true →
      hashStyleOpt p1 = some h →
      markerStyleOpt p1 h = some sd1 →
      (∀ k ∈ styleHashKeys, k ≠ "marker-color" → lookupP p3 k = lookupP p1 k) →
      lookupP p1 "marker-color" = some (.vStr c1) →
      lookupP p3 "marker-color" = some (.vStr c3) →
      c1 ≠ "" → c3 ≠ "" →
      removeFirstChar '#' c1.data ≠ removeFirstChar '#' c3.data →
      hashStyleOpt p3 = some hh →
      markerStyleOpt p3 hh = some sd3 →
      hashStyleOpt p2 = some h ∧ h ≠ "" ∧ hh ≠ h ∧
      featuresRun o []
          [⟨id1, some g1, some p1⟩, ⟨id2, some g2, some p2⟩, ⟨id3, some g3, some p3⟩] =
        some (
          (sd1 ++ tagA "Placemark" (idAttrs id1)
            (placemarkBody (removeMarkerStyles p1) o m1 (tag "styleUrl" ("#" ++ h)))) ++
          (tagA "Placemark" (idAttrs id2)
            (placemarkBody (removeMarkerStyles p2) o m2 (tag "styleUrl" ("#" ++ h))) ++
          ((sd3 ++ tagA "Placemark" (idAttrs id3)
            (placemarkBody (removeMarkerStyles p3) o m3 (tag "styleUrl" ("#" ++ hh)))) ++ "")),
          [h, hh]) := by
  intro o p1 p2 p3 g1 g2 g3 id1 id2 id3 m1 m2 m3 h hh sd1 sd3 c1 c3
  intro ho hpt1 hpt2 hpt3 hval1 hval2 hval3 hany1 hany2 hany3 hm1ne hm2ne hm3ne
  intro hagree2 hmark1 hp1 hms1 hagree3 hc1 hc3 ht1 ht3 hdiff hp3 hms3
  have hp2 : hashStyleOpt p2 = some h := (hashStyleOpt_congr hagree2).trans hp1
  have hmark2 : hasMarkerStyle p2 = true := (hasMarkerStyle_congr hagree2).trans hmark1
  have hne : h ≠ "" := hash_ne_empty_of_marker hmark1 hp1
  have hmark3 : hasMarkerStyle p3 = true := by
    simp [hasMarkerStyle, hc3, truthy, truthyV, ht3]
  have hhne : hh ≠ "" := hash_ne_empty_of_marker hmark3 hp3
  have hdiffh : hh ≠ h :=
    hashStyle_color_ne hagree3 hc3 hc1 ht3 ht1 (Ne.symm hdiff) hp3 hp1
  have hpm1 : (isPointKind g1 && hasMarkerStyle p1) = true := by rw [hpt1, hmark1]; rfl
  have hpm2 : (isPointKind g2 && hasMarkerStyle p2) = true := by rw [hpt2, hmark2]; rfl
  have hpm3 : (isPointKind g3 && hasMarkerStyle p3) = true := by rw [hpt3, hmark3]; rfl
  have c0 : ([] : List String).contains h = false := rfl
  have cc1 : ([h] : List String).contains h = true := by simp
  have cc2 : ([h] : List String).contains hh = false := by simp [hdiffh]
  have e1 : featureRun o [] ⟨id1, some g1, some p1⟩ =
      some (sd1 ++ tagA "Placemark" (idAttrs id1)
        (placemarkBody (removeMarkerStyles p1) o m1 (tag "styleUrl" ("#" ++ h))), [h]) := by
    rw [featureRun_marker [] id1 ho hval1 hany1 hm1ne hp1 hne hpm1]
    simp [c0, hms1]
  have e2 : featureRun o [h] ⟨id2, some g2, some p2⟩ =
      some (tagA "Placemark" (idAttrs id2)
        (placemarkBody (removeMarkerStyles p2) o m2 (tag "styleUrl" ("#" ++ h))), [h]) := by
    rw [featureRun_marker [h] id2 ho hval2 hany2 hm2ne hp2 hne hpm2]
    simp [cc1]
  have e3 : featureRun o [h] ⟨id3, some g3, some p3⟩ =
      some (sd3 ++ tagA "Placemark" (idAttrs id3)
        (placemarkBody (removeMarkerStyles p3) o m3 (tag "styleUrl" ("#" ++ hh))), [h, hh]) := by
    rw [featureRun_marker [h] id3 ho hval3 hany3 hm3ne hp3 hhne hpm3]
    simp [cc2, hms3, hdiffh]
  refine ⟨hp2, hne, hdiffh, ?_⟩
  simp only [featuresRun, e1, e2, e3]

/-- Witness for C1 (amended): two features with `marker-color: "f00"` and a
third with `marker-color: "0f0"`. -/
theorem style_dedup_all_keys_witness :
    hashStyleOpt ([("marker-color", PValue.vStr "f00")] : Properties) = some "mcf00" ∧
    ("mcf00" : String) ≠ "" ∧ ("mc0f0" : String) ≠ "mcf00" ∧
    featuresRun { simplestyle := some true } []
        [⟨none, some (.point (some [⟨0, 1⟩])), some [("marker-color", PValue.vStr "f00")]⟩,
         ⟨none, some (.point (some [⟨0, 1⟩])), some [("marker-color", PValue.vStr "f00")]⟩,
         ⟨none, some (.point (some [⟨0, 1⟩])), some [("marker-color", PValue.vStr "0f0")]⟩] =
      some (
        ((markerStyleOpt [("marker-color", PValue.vStr "f00")] "mcf00").getD "" ++
          tagA "Placemark" (idAttrs none)
            (placemarkBody (removeMarkerStyles [("marker-color", PValue.vStr "f00")])
              { simplestyle := some true } "<Point><coordinates>0</coordinates></Point>"
              (tag "styleUrl" ("#" ++ "mcf00")))) ++
        (tagA "Placemark" (idAttrs none)
            (placemarkBody (removeMarkerStyles [("marker-color", PValue.vStr "f00")])
              { simplestyle := some true } "<Point><coordinates>0</coordinates></Point>"
              (tag "styleUrl" ("#" ++ "mcf00"))) ++
        (((markerStyleOpt [("marker-color", PValue.vStr "0f0")] "mc0f0").getD "" ++
          tagA "Placemark" (idAttrs none)
            (placemarkBody (removeMarkerStyles [("marker-color", PValue.vStr "0f0")])
              { simplestyle := some true } "<Point><coordinates>0</coordinates></Point>"
              (tag "styleUrl" ("#" ++ "mc0f0")))) ++ "")),
        ["mcf00", "mc0f0"]) :=
  style_dedup_all_keys { simplestyle := some true }
    [("marker-color", PValue.vStr "f00")] [("marker-color", PValue.vStr "f00")]
    [("marker-color", PValue.vStr "0f0")]
    (.point (some [⟨0, 1⟩])) (.point (some [⟨0, 1⟩])) (.point (some [⟨0, 1⟩]))
    none none none
    "<Point><coordinates>0</coordinates></Point>" "<Point><coordinates>0</coordinates></Point>"
    "<Point><coordinates>0</coordinates></Point>" "mcf00" "mc0f0"
    ((markerStyleOpt [("marker-color", PValue.vStr "f00")] "mcf00").getD "")
    ((markerStyleOpt [("marker-color", PValue.vStr "0f0")] "mc0f0").getD "")
    "f00" "0f0"
    (by decide) (by decide) (by decide) (by decide) (by decide) (by decide) (by decide)
    (by decide) (by decide) (by decide) (by decide) (by decide) (by decide) (by decide)
    (by decide) (by decide) (by decide) (by decide) (by decide) (by decide) (by decide)
    (by decide) (by decide) (by decide) (by decide)

-- ## Store lemmas (for the frame claim C9)

theorem getObj_alloc_old {s : Store} {p : Properties} {r : Nat} (hr : r < s.objs.length) :
    (Store.mk (s.objs ++ [p])).getObj r = s.getObj r := by
  simp only [Store.getObj]
  exact List.getD_append _ _ _ _ hr

theorem getObj_alloc_fresh (s : Store) (p : Properties) :
    (Store.mk (s.objs ++ [p])).getObj s.objs.length = p := by
  simp only [Store.getObj]
  rw [List.getD_append_right _ _ _ _ (le_refl _)]
  simp [List.getD]

theorem length_alloc (s : Store) (p : Properties) :
    (Store.mk (s.objs ++ [p])).objs.length = s.objs.length + 1 := by
  simp

theorem getObj_setObj_self {s : Store} {r : Nat} {p : Properties} (hr : r < s.objs.length) :
    (s.setObj r p).getObj r = p := by
  simp [Store.setObj, Store.getObj, List.getD, List.getElem?_set_self', hr]

theorem getObj_setObj_ne {s : Store} {r1 : Nat} {p : Properties} {r : Nat} (h : r ≠ r1) :
    (s.setObj r1 p).getObj r = s.getObj r := by
  simp [Store.setObj, Store.getObj, List.getD, List.getElem?_set_ne (Ne.symm h)]

theorem length_setObj (s : Store) (r : Nat) (p : Properties) :
    (s.setObj r p).objs.length = s.objs.length :=
  List.length_set s.objs r p

theorem getObj_deleteKeyAt_ne {s : Store} {r1 : Nat} {k : String} {r : Nat} (h : r ≠ r1) :
    (deleteKeyAt s r1 k).getObj r = s.getObj r :=
  getObj_setObj_ne h

theorem length_deleteKeyAt (s : Store) (r : Nat) (k : String) :
    (deleteKeyAt s r k).objs.length = s.objs.length :=
  length_setObj _ _ _

theorem getObj_deleteKeyAt_self {s : Store} {r : Nat} {k : String} (hr : r < s.objs.length) :
    (deleteKeyAt s r k).getObj r = removeKey k (s.getObj r) :=
  getObj_setObj_self hr

theorem getObj_removeMarkerStylesAt_ne {s : Store} {r1 r : Nat} (h : r ≠ r1) :
    (removeMarkerStylesAt s r1).getObj r = s.getObj r := by
  simp only [removeMarkerStylesAt]
  rw [getObj_deleteKeyAt_ne h, getObj_deleteKeyAt_ne h, getObj_deleteKeyAt_ne h,
    getObj_deleteKeyAt_ne h]

theorem length_removeMarkerStylesAt (s : Store) (r : Nat) :
    (removeMarkerStylesAt s r).objs.length = s.objs.length := by
  simp [removeMarkerStylesAt, length_deleteKeyAt]

theorem getObj_removeMarkerStylesAt_self {s : Store} {r : Nat} (hr : r < s.objs.length) :
    (removeMarkerStylesAt s r).getObj r = removeMarkerStyles (s.getObj r) := by
  have l1 : r < (deleteKeyAt s r "marker-shape").objs.length := by
    rw [length_deleteKeyAt]; exact hr
  have l2 : r < (deleteKeyAt (deleteKeyAt s r "marker-shape") r "marker-symbol").objs.length := by
    rw [length_deleteKeyAt, length_deleteKeyAt]; exact hr
  have l3 : r < (deleteKeyAt (deleteKeyAt (deleteKeyAt s r "marker-shape") r "marker-symbol")
      r "marker-color").objs.length := by
    rw [length_deleteKeyAt, length_deleteKeyAt, length_deleteKeyAt]; exact hr
  simp only [removeMarkerStylesAt, removeMarkerStyles]
  rw [getObj_deleteKeyAt_self l3, getObj_deleteKeyAt_self l2, getObj_deleteKeyAt_self l1,
    getObj_deleteKeyAt_self hr]

theorem getObj_removePolygonAndLineStylesAt_ne {s : Store} {r1 r : Nat} (h : r ≠ r1) :
    (removePolygonAndLineStylesAt s r1).getObj r = s.getObj r := by
  simp only [removePolygonAndLineStylesAt]
  rw [getObj_deleteKeyAt_ne h, getObj_deleteKeyAt_ne h, getObj_deleteKeyAt_ne h,
    getObj_deleteKeyAt_ne h, getObj_deleteKeyAt_ne h]

theorem length_removePolygonAndLineStylesAt (s : Store) (r : Nat) :
    (removePolygonAndLineStylesAt s r).objs.length = s.objs.length := by
  simp [removePolygonAndLineStylesAt, length_deleteKeyAt]

theorem getObj_removePolygonAndLineStylesAt_self {s : Store} {r : Nat}
    (hr : r < s.objs.length) :
    (removePolygonAndLineStylesAt s r).getObj r = removePolygonAndLineStyles (s.getObj r) := by
  have l1 : r < (deleteKeyAt s r "stroke").objs.length := by
    rw [length_deleteKeyAt]; exact hr
  have l2 : r < (deleteKeyAt (deleteKeyAt s r "stroke") r "stroke-width").objs.length := by
    rw [length_deleteKeyAt, length_deleteKeyAt]; exact hr
  have l3 : r < (deleteKeyAt (deleteKeyAt (deleteKeyAt s r "stroke") r "stroke-width")
      r "stroke-opacity").objs.length := by
    rw [length_deleteKeyAt, length_deleteKeyAt, length_deleteKeyAt]; exact hr
  have l4 : r < (deleteKeyAt (deleteKeyAt (deleteKeyAt (deleteKeyAt s r "stroke")
      r "stroke-width") r "stroke-opacity") r "fill").objs.length := by
    rw [length_deleteKeyAt, length_deleteKeyAt, length_deleteKeyAt, length_deleteKeyAt]; exact hr
  simp only [removePolygonAndLineStylesAt, removePolygonAndLineStyles]
  rw [getObj_deleteKeyAt_self l4, getObj_deleteKeyAt_self l3, getObj_deleteKeyAt_self l2,
    getObj_deleteKeyAt_self l1, getObj_deleteKeyAt_self hr]

theorem styleStepS_spec {o : Options} {g : Geometry} {r : Nat} {hashes : List String}
    {s : Store} {sd sr : String} {r2 : Nat} {hashes2 : List String} {s2 : Store}
    (hst : styleStepS o g r hashes s = some (sd, sr, r2, hashes2, s2)) :
    (∀ rr, rr < s.objs.length → s2.getObj rr = s.getObj rr) ∧
    s.objs.length ≤ s2.objs.length ∧
    styleStep o g (s.getObj r) hashes = some (sd, sr, s2.getObj r2, hashes2) := by
  have presM : ∀ rr, rr < s.objs.length →
      (removeMarkerStylesAt ⟨s.objs ++ [s.getObj r]⟩ s.objs.length).getObj rr = s.getObj rr := by
    intro rr hrr
    rw [getObj_removeMarkerStylesAt_ne (Nat.ne_of_lt hrr), getObj_alloc_old hrr]
  have lenM : s.objs.length ≤
      (removeMarkerStylesAt ⟨s.objs ++ [s.getObj r]⟩ s.objs.length).objs.length := by
    rw [length_removeMarkerStylesAt, length_alloc]
    omega
  have freshM : (removeMarkerStylesAt ⟨s.objs ++ [s.getObj r]⟩ s.objs.length).getObj
      s.objs.length = removeMarkerStyles (s.getObj r) := by
    rw [getObj_removeMarkerStylesAt_self (by rw [length_alloc]; omega), getObj_alloc_fresh]
  have presP : ∀ rr, rr < s.objs.length →
      (removePolygonAndLineStylesAt ⟨s.objs ++ [s.getObj r]⟩ s.objs.length).getObj rr =
        s.getObj rr := by
    intro rr hrr
    rw [getObj_removePolygonAndLineStylesAt_ne (Nat.ne_of_lt hrr), getObj_alloc_old hrr]
  have lenP : s.objs.length ≤
      (removePolygonAndLineStylesAt ⟨s.objs ++ [s.getObj r]⟩ s.objs.length).objs.length := by
    rw [length_removePolygonAndLineStylesAt, length_alloc]
    omega
  have freshP : (removePolygonAndLineStylesAt ⟨s.objs ++ [s.getObj r]⟩ s.objs.length).getObj
      s.objs.length = removePolygonAndLineStyles (s.getObj r) := by
    rw [getObj_removePolygonAndLineStylesAt_self (by rw [length_alloc]; omega),
      getObj_alloc_fresh]
  by_cases ho : rSimplestyle o = false
  · rw [styleStepS, if_pos ho] at hst
    simp only [Option.some.injEq, Prod.mk.injEq] at hst
    obtain ⟨h1, h2, h3, h4, h5⟩ := hst
    subst h1; subst h2; subst h3; subst h4; subst h5
    exact ⟨fun rr _ => rfl, le_refl _, by rw [styleStep, if_pos ho]⟩
  · rw [styleStepS, if_neg ho] at hst
    cases hh : hashStyleOpt (s.getObj r) with
    | none =>
      simp only [hh] at hst
      exact absurd hst (by simp)
    | some styleHash =>
      simp only [hh] at hst
      by_cases hsh : styleHash = ""
      · rw [if_pos hsh] at hst
        simp only [Option.some.injEq, Prod.mk.injEq] at hst
        obtain ⟨h1, h2, h3, h4, h5⟩ := hst
        subst h1; subst h2; subst h3; subst h4; subst h5
        refine ⟨fun rr _ => rfl, le_refl _, ?_⟩
        rw [styleStep, if_neg ho]
        simp only [hh]
        rw [if_pos hsh]
      · rw [if_neg hsh] at hst
        by_cases hpm : (isPointKind g && hasMarkerStyle (s.getObj r)) = true
        · rw [if_pos hpm] at hst
          by_cases hc : hashes.contains styleHash = true
          · rw [if_pos hc] at hst
            simp only [Store.alloc, Option.some.injEq, Prod.mk.injEq] at hst
            obtain ⟨h1, h2, h3, h4, h5⟩ := hst
            subst h1; subst h2; subst h3; subst h4; subst h5
            refine ⟨presM, lenM, ?_⟩
            rw [styleStep, if_neg ho]
            simp only [hh]
            rw [if_neg hsh, if_pos hpm, if_pos hc, freshM]
          · rw [if_neg hc] at hst
            cases hms : markerStyleOpt (s.getObj r) styleHash with
            | none =>
              simp only [hms] at hst
              exact absurd hst (by simp)
            | some sdm =>
              simp only [hms, Store.alloc, Option.some.injEq, Prod.mk.injEq] at hst
              obtain ⟨h1, h2, h3, h4, h5⟩ := hst
              subst h1; subst h2; subst h3; subst h4; subst h5
              refine ⟨presM, lenM, ?_⟩
              rw [styleStep, if_neg ho]
              simp only [hh]
              rw [if_neg hsh, if_pos hpm, if_neg hc]
              simp only [hms, freshM]
        · rw [if_neg hpm] at hst
          by_cases hpl : ((isPolygonKind g || isLineKind g) &&
              hasPolygonAndLineStyle (s.getObj r)) = true
          · rw [if_pos hpl] at hst
            by_cases hc : hashes.contains styleHash = true
            · rw [if_pos hc] at hst
              simp only [Store.alloc, Option.some.injEq, Prod.mk.injEq] at hst
              obtain ⟨h1, h2, h3, h4, h5⟩ := hst
              subst h1; subst h2; subst h3; subst h4; subst h5
              refine ⟨presP, lenP, ?_⟩
              rw [styleStep, if_neg ho]
              simp only [hh]
              rw [if_neg hsh, if_neg hpm, if_pos hpl, if_pos hc, freshP]
            · rw [if_neg hc] at hst
              simp only [Store.alloc, Option.some.injEq, Prod.mk.injEq] at hst
              obtain ⟨h1, h2, h3, h4, h5⟩ := hst
              subst h1; subst h2; subst h3; subst h4; subst h5
              refine ⟨presP, lenP, ?_⟩
              rw [styleStep, if_neg ho]
              simp only [hh]
              rw [if_neg hsh, if_neg hpm, if_pos hpl, if_neg hc, freshP]
          · rw [if_neg hpl] at hst
            simp only [Option.some.injEq, Prod.mk.injEq] at hst
            obtain ⟨h1, h2, h3, h4, h5⟩ := hst
            subst h1; subst h2; subst h3; subst h4; subst h5
            refine ⟨fun rr _ => rfl, le_refl _, ?_⟩
            rw [styleStep, if_neg ho]
            simp only [hh]
            rw [if_neg hsh, if_neg hpm, if_neg hpl]

instance : DecidableEq Store := fun a b =>
  match a, b with
  | ⟨x⟩, ⟨y⟩ =>
    if h : x = y then isTrue (by rw [h]) else isFalse (by intro hc; cases hc; exact h rfl)

theorem featureRunS_spec {o : Options} {hashes : List String} {f : FeatureS} {s : Store}
    {out : String} {hashes2 : List String} {s2 : Store}
    (h : featureRunS o hashes f s = some (out, hashes2, s2)) :
    (∀ rr, rr < s.objs.length → s2.getObj rr = s.getObj rr) ∧
    s.objs.length ≤ s2.objs.length := by
  rw [featureRunS.eq_def] at h
  cases hp : f.properties with
  | none =>
    simp only [hp, Option.some.injEq, Prod.mk.injEq] at h
    obtain ⟨-, -, h3⟩ := h
    subst h3
    exact ⟨fun rr _ => rfl, le_refl _⟩
  | some r =>
    simp only [hp] at h
    cases hg : f.geometry with
    | none =>
      simp only [hg, Option.some.injEq, Prod.mk.injEq] at h
      obtain ⟨-, -, h3⟩ := h
      subst h3
      exact ⟨fun rr _ => rfl, le_refl _⟩
    | some g =>
      simp only [hg] at h
      by_cases hval : geomIsValid g = false
      · rw [if_pos hval] at h
        simp only [Option.some.injEq, Prod.mk.injEq] at h
        obtain ⟨-, -, h3⟩ := h
        subst h3
        exact ⟨fun rr _ => rfl, le_refl _⟩
      · rw [if_neg hval] at h
        cases ha : anyGeometry g with
        | none =>
          simp only [ha] at h
          exact absurd h (by simp)
        | some gs =>
          simp only [ha] at h
          by_cases hgs : gs = ""
          · rw [if_pos hgs] at h
            simp only [Option.some.injEq, Prod.mk.injEq] at h
            obtain ⟨-, -, h3⟩ := h
            subst h3
            exact ⟨fun rr _ => rfl, le_refl _⟩
          · rw [if_neg hgs] at h
            cases hss : styleStepS o g r hashes s with
            | none =>
              simp only [hss] at h
              exact absurd h (by simp)
            | some t =>
              obtain ⟨sd, sr, r2, h2, s2'⟩ := t
              simp only [hss, Option.some.injEq, Prod.mk.injEq] at h
              obtain ⟨-, -, h3⟩ := h
              subst h3
              obtain ⟨pres, len, -⟩ := styleStepS_spec hss
              exact ⟨pres, len⟩

theorem featuresRunS_spec :
    ∀ (fs : List FeatureS) (o : Options) (hashes : List String) (s : Store)
      (out : String) (hashes2 : List String) (s2 : Store),
      featuresRunS o hashes fs s = some (out, hashes2, s2) →
      (∀ rr, rr < s.objs.length → s2.getObj rr = s.getObj rr) ∧
      s.objs.length ≤ s2.objs.length := by
  intro fs
  induction fs with
  | nil =>
    intro o hashes s out hashes2 s2 h
    simp only [featuresRunS, Option.some.injEq, Prod.mk.injEq] at h
    obtain ⟨-, -, h3⟩ := h
    subst h3
    exact ⟨fun rr _ => rfl, le_refl _⟩
  | cons f rest ih =>
    intro o hashes s out hashes2 s2 h
    simp only [featuresRunS] at h
    cases h1 : featureRunS o hashes f s with
    | none =>
      simp only [h1] at h
      exact absurd h (by simp)
    | some t1 =>
      obtain ⟨str, hh2, ss2⟩ := t1
      simp only [h1] at h
      cases h2 : featuresRunS o hh2 rest ss2 with
      | none =>
        simp only [h2] at h
        exact absurd h (by simp)
      | some t2 =>
        obtain ⟨rest', h3, s3⟩ := t2
        simp only [h2, Option.some.injEq, Prod.mk.injEq] at h
        obtain ⟨-, -, hs3⟩ := h
        subst hs3
        obtain ⟨p1, l1⟩ := featureRunS_spec h1
        obtain ⟨p2, l2⟩ := ih o hh2 ss2 rest' h3 s3 h2
        refine ⟨?_, le_trans l1 l2⟩
        intro rr hrr
        rw [p2 rr (lt_of_lt_of_le hrr l1), p1 rr hrr]

-- ## Claim C9

/-- C9: the caller's input property objects are never mutated. In the
object-store rendering of `feature` (where `removeMarkerStyles` /
`removePolygonAndLineStyles` delete keys in place on the object passed to
them, and the code passes them the fresh shallow copy `{...properties}`),
running a conversion leaves every pre-existing object in the store unchanged,
so each input feature's properties object still has all its original keys and
values; and the properties object used for the Placemark afterwards holds
exactly the filtered copy that the pure model computes. -/
theorem conversion_preserves_input_properties :
    (∀ (o : Options) (hashes : List String) (fs : List FeatureS) (s : Store)
        (out : String) (hashes2 : List String) (s2 : Store),
        featuresRunS o hashes fs s = some (out, hashes2, s2) →
        ∀ r, r < s.objs.length → s2.getObj r = s.getObj r) ∧
    (∀ (o : Options) (g : Geometry) (r : Nat) (hashes : List String) (s : Store)
        (sd sr : String) (r2 : Nat) (hashes2 : List String) (s2 : Store),
        styleStepS o g r hashes s = some (sd, sr, r2, hashes2, s2) →
        styleStep o g (s.getObj r) hashes = some (sd, sr, s2.getObj r2, hashes2)) :=
  ⟨fun o hashes fs s out hashes2 s2 h r hr =>
    (featuresRunS_spec fs o hashes s out hashes2 s2 h).1 r hr,
   fun _ _ _ _ _ _ _ _ _ _ h => (styleStepS_spec h).2.2⟩

/-- Witness for C9 at a concrete one-feature conversion with a marker style:
the caller's object at reference 0 is unchanged after the run. -/
theorem conversion_preserves_input_properties_witness :
    featuresRunS { simplestyle := some true } []
        [⟨none, some (.point (some [⟨0, 1⟩])), some 0⟩]
        ⟨[[("marker-symbol", PValue.vStr "a"), ("x", PValue.vStr "y")]]⟩ =
      some ((featuresRunS { simplestyle := some true } []
        [⟨none, some (.point (some [⟨0, 1⟩])), some 0⟩]
        ⟨[[("marker-symbol", PValue.vStr "a"), ("x", PValue.vStr "y")]]⟩).getD ("", [], ⟨[]⟩)) ∧
    ((featuresRunS { simplestyle := some true } []
        [⟨none, some (.point (some [⟨0, 1⟩])), some 0⟩]
        ⟨[[("marker-symbol", PValue.vStr "a"), ("x", PValue.vStr "y")]]⟩).getD
          ("", [], ⟨[]⟩)).2.2.getObj 0 =
      (⟨[[("marker-symbol", PValue.vStr "a"), ("x", PValue.vStr "y")]]⟩ : Store).getObj 0 := by
  refine ⟨by decide, ?_⟩
  exact conversion_preserves_input_properties.1 { simplestyle := some true } []
    [⟨none, some (.point (some [⟨0, 1⟩])), some 0⟩]
    ⟨[[("marker-symbol", PValue.vStr "a"), ("x", PValue.vStr "y")]]⟩
    ((featuresRunS { simplestyle := some true } []
      [⟨none, some (.point (some [⟨0, 1⟩])), some 0⟩]
      ⟨[[("marker-symbol", PValue.vStr "a"), ("x", PValue.vStr "y")]]⟩).getD ("", [], ⟨[]⟩)).1
    ((featuresRunS { simplestyle := some true } []
      [⟨none, some (.point (some [⟨0, 1⟩])), some 0⟩]
      ⟨[[("marker-symbol", PValue.vStr "a"), ("x", PValue.vStr "y")]]⟩).getD ("", [], ⟨[]⟩)).2.1
    ((featuresRunS { simplestyle := some true } []
      [⟨none, some (.point (some [⟨0, 1⟩])), some 0⟩]
      ⟨[[("marker-symbol", PValue.vStr "a"), ("x", PValue.vStr "y")]]⟩).getD ("", [], ⟨[]⟩)).2.2
    (by decide) 0 (by decide)
